import Mathlib

/-!
Clock (`Timer`) and driving loop (`Renderer::start_looping`)

A shallow embedding of `src/include/timer.hpp` and of the control flow of
`Renderer::initialize` / `Renderer::start_looping` in `src/include/renderer.hpp`.

* The four `float` fields of `Timer` are IEEE 754 binary32 values (`F32`):
  finite values, the two infinities and NaN. A finite value is held as an
  integer number of units of `2^-149` (the smallest subnormal), so that every
  finite binary32 value is an integer `m` with `|m| < 2^277` whose magnitude
  is a multiple of the spacing `ulp |m|` at that magnitude. `+=` is `F32.add`:
  the exact sum rounded to nearest, ties to even, overflowing to infinity.
  `+0.0f` and `-0.0f` are one value; `>=` does not tell them apart.
* `k_time_step` and `k_max_display_time` come from `common.hpp`; they are
  carried in the record `Common` and taken to be `float`s, like the fields
  they are assigned to and compared with.
* `Solver` comes from `solver.hpp`; its state type and its
  `compute_next_state` are parameters.
* `glfwWindowShouldClose(window)` is answered by the environment: it is a
  function giving the answer at each evaluation of the loop guard.
-/

namespace RigidBody

/-! ## IEEE 754 binary32 -/

/-- The spacing of binary32 values at magnitude `a` (in units of `2^-149`),
computed with `fuel` halvings at most: `1` below `2^24`, doubling with each
further binary digit of `a`. -/
def ulpAux : ℕ → ℕ → ℕ
  | 0, _ => 1
  | fuel + 1, a => if a < 2 ^ 24 then 1 else 2 * ulpAux fuel (a / 2)

/-- The spacing of binary32 values at magnitude `a`: `2^s` with
`a < 2^24 * 2^s`, and `2^23 * 2^s ≤ a` unless `s = 0`. -/
def ulp (a : ℕ) : ℕ :=
  ulpAux a a

/-- Round `a` to a multiple of `p`, to nearest, ties to the even multiple. -/
def rnd (p a : ℕ) : ℕ :=
  if 2 * (a % p) < p then a / p * p
  else if p < 2 * (a % p) then (a / p + 1) * p
  else if a / p % 2 = 0 then a / p * p
  else (a / p + 1) * p

/-- Round the magnitude `a` to 24 significant binary digits, to nearest, ties
to even. -/
def rne (a : ℕ) : ℕ :=
  rnd (ulp a) a

/-- Round an integer number of units to 24 significant binary digits. -/
def roundInt (m : ℤ) : ℤ :=
  if m < 0 then -(rne m.natAbs : ℤ) else (rne m.natAbs : ℤ)

/-- The integer `m` (in units of `2^-149`) is a finite binary32 value: its
magnitude has at most 24 significant binary digits and is below `2^128`,
that is `2^277` units. -/
def isF32 (m : ℤ) : Bool :=
  decide (m.natAbs % ulp m.natAbs = 0 ∧ m.natAbs < 2 ^ 277)

/-- A value of the C type `float`. -/
inductive F32 where
  | fin (m : ℤ) (h : isF32 m = true)
  | inf (neg : Bool)
  | nan
deriving DecidableEq

namespace F32

/-- The binary32 value nearest to `m` units (ties to even); an infinity when
the rounded magnitude reaches `2^128`. -/
def ofInt (m : ℤ) : F32 :=
  if h : isF32 (roundInt m) = true then fin (roundInt m) h
  else inf (decide (m < 0))

/-- The literal `0.0f`. -/
def zero : F32 :=
  ofInt 0

/-- The value `s * 2^e` units, that is `s * 2^(e - 149)`, rounded to binary32. -/
def scaled (s : ℤ) (e : ℕ) : F32 :=
  ofInt (s * ((2 ^ e : ℕ) : ℤ))

/-- The conversion of an `int` to `float`. -/
def ofCInt (n : ℤ) : F32 :=
  scaled n 149

/-- Binary32 addition. -/
def add : F32 → F32 → F32
  | nan, _ => nan
  | _, nan => nan
  | inf s, inf t => if s = t then inf s else nan
  | inf s, fin _ _ => inf s
  | fin _ _, inf t => inf t
  | fin a _, fin b _ => ofInt (a + b)

/-- The comparison `a >= b`: false when either side is NaN. -/
def ge : F32 → F32 → Bool
  | nan, _ => false
  | _, nan => false
  | inf s, inf t => !s || t
  | inf s, fin _ _ => !s
  | fin _ _, inf t => t
  | fin a _, fin b _ => decide (b ≤ a)

/-- The comparison `a < b`: false when either side is NaN. -/
def lt (a b : F32) : Bool :=
  ge b a && !ge a b

/-- The number of units of `2^-149` of a finite value. -/
def units : F32 → Option ℤ
  | fin m _ => some m
  | _ => none

/-- The literal `1.0f`. -/
def one : F32 :=
  ofCInt 1

/-- The literal `0.01f`: the binary32 value nearest to `1/100` is
`10737418 * 2^-30` (`0x1.47ae14p-7`), and `10737418 < 2^24`. -/
def lit_0_01 : F32 :=
  scaled 10737418 119

/-- The literal `0.1f`: the binary32 value nearest to `1/10` is
`13421773 * 2^-27` (`0x1.99999ap-4`), and `13421773 < 2^24`. -/
def lit_0_1 : F32 :=
  scaled 13421773 122

end F32

/-! ## Constants of `common.hpp` -/

/-- The two constants of `common.hpp` that `timer.hpp` reads. -/
structure Common where
  k_time_step : F32
  k_max_display_time : F32
deriving DecidableEq

/-! ## `class Timer` -/

/-- The private fields of `class Timer`. -/
structure Timer where
  simulation_time_ : F32
  timestep_ : F32
  refresh_interval_ : F32
  next_display_time_ : F32
deriving DecidableEq

namespace Timer

/-- Method `void reset(float refresh_interval)`: four assignments, in source order. -/
def reset (c : Common) (t : Timer) (refresh_interval : F32) : Timer :=
  let t1 := { t with timestep_ := c.k_time_step }
  let t2 := { t1 with simulation_time_ := F32.zero }
  let t3 := { t2 with refresh_interval_ := refresh_interval }
  { t3 with next_display_time_ := F32.add F32.zero t3.refresh_interval_ }

/-- Method `float get_simluation_time()`. -/
def get_simluation_time (t : Timer) : F32 :=
  t.simulation_time_

/-- Method `void update_simulation_time()`: `simulation_time_ += k_time_step`. -/
def update_simulation_time (c : Common) (t : Timer) : Timer :=
  { t with simulation_time_ := F32.add t.simulation_time_ c.k_time_step }

/-- Method `void update_next_display_time()`: `next_display_time_ += refresh_interval_`. -/
def update_next_display_time (t : Timer) : Timer :=
  { t with next_display_time_ := F32.add t.next_display_time_ t.refresh_interval_ }

/-- Method `bool is_time_to_draw()`: `simulation_time_ >= next_display_time_`. -/
def is_time_to_draw (t : Timer) : Bool :=
  F32.ge t.simulation_time_ t.next_display_time_

/-- Method `bool is_time_to_stop()`: `simulation_time_ >= k_max_display_time`. -/
def is_time_to_stop (c : Common) (t : Timer) : Bool :=
  F32.ge t.simulation_time_ c.k_max_display_time

end Timer

/-! ## Globals and control flow of `renderer.hpp` -/

/-- Global `float refresh_interval = (1/30);`: the initialiser is the quotient of two
`int` literals (truncating division), converted to `float` afterwards. -/
def refresh_interval : F32 :=
  F32.ofCInt (Int.tdiv 1 30)

/-- The calls made by the body of the loop of `Renderer::start_looping`. -/
inductive Action where
  | processInput
  | glfwPollEvents
  | update_next_display_time
  | glBindBuffer
  | glBufferSubData
  | draw
  | compute_next_state
  | update_simulation_time
deriving DecidableEq

/-- The part of `class Renderer` that the driving loop reads and writes: the
members `timer` and `sovler`, and a log of the calls made so far (the GL
handles and matrices do not influence control flow). -/
structure Renderer (σ : Type) where
  timer : Timer
  sovler : σ
  log : List Action
deriving DecidableEq

namespace Renderer

variable {σ : Type}

/-- Record one call in the log. -/
def emit (a : Action) (r : Renderer σ) : Renderer σ :=
  { r with log := r.log ++ [a] }

/-- Method `void initialize()`: its first statement is `timer.reset(refresh_interval)`;
the rest sets up the window and the GL objects. -/
def initialize_timer (c : Common) (r : Renderer σ) : Renderer σ :=
  { r with timer := Timer.reset c r.timer refresh_interval }

/-- The body of the `while` loop of `start_looping` (lines 212-223). -/
def loop_body (c : Common) (compute_next_state : σ → σ) (r : Renderer σ) : Renderer σ :=
  let r1 := emit Action.processInput r
  let r2 := emit Action.glfwPollEvents r1
  let r3 :=
    if r2.timer.is_time_to_draw then
      let d1 := emit Action.update_next_display_time
        { r2 with timer := r2.timer.update_next_display_time }
      let d2 := emit Action.glBindBuffer d1
      let d3 := emit Action.glBufferSubData d2
      emit Action.draw d3
    else r2
  let r4 := emit Action.compute_next_state { r3 with sovler := compute_next_state r3.sovler }
  emit Action.update_simulation_time { r4 with timer := r4.timer.update_simulation_time c }

/-- The loop guard `!glfwWindowShouldClose(window) && !timer.is_time_to_stop()`
at its `i`-th evaluation (counted from 0). -/
def loop_guard (c : Common) (shouldClose : ℕ → Bool) (i : ℕ) (r : Renderer σ) : Bool :=
  !shouldClose i && !r.timer.is_time_to_stop c

/-- Method `void start_looping()`: the `while` loop, run with a bound on the number of
guard evaluations; `none` when the bound is used up before the guard fails.
`i` counts the guard evaluations made so far. -/
def start_looping (c : Common) (compute_next_state : σ → σ) (shouldClose : ℕ → Bool) :
    ℕ → ℕ → Renderer σ → Option (Renderer σ)
  | 0, _, _ => none
  | fuel + 1, i, r =>
    if loop_guard c shouldClose i r then
      start_looping c compute_next_state shouldClose fuel (i + 1)
        (loop_body c compute_next_state r)
    else some r

/-- The renderer state at the head of iteration `k` (counted from 0) of the
loop, that is after `k` executions of the loop body. -/
def iterations (c : Common) (compute_next_state : σ → σ) (k : ℕ) (r : Renderer σ) :
    Renderer σ :=
  (loop_body c compute_next_state)^[k] r

/-- The calls made by one execution of the loop body from state `r`: what the
body appends to the log. -/
def iteration_actions (c : Common) (compute_next_state : σ → σ) (r : Renderer σ) :
    List Action :=
  (loop_body c compute_next_state r).log.drop r.log.length

end Renderer

/-- The calls of a loop iteration in which a draw is due (lines 212-223). -/
def draw_iteration : List Action :=
  [Action.processInput, Action.glfwPollEvents, Action.update_next_display_time,
   Action.glBindBuffer, Action.glBufferSubData, Action.draw,
   Action.compute_next_state, Action.update_simulation_time]

/-- The calls of a loop iteration in which no draw is due (lines 212, 213, 222, 223). -/
def skip_iteration : List Action :=
  [Action.processInput, Action.glfwPollEvents,
   Action.compute_next_state, Action.update_simulation_time]

/-! ## Sequences of `Timer` operations -/

/-- The operations of `Timer` that may follow `reset`. -/
inductive Op where
  | update_simulation_time
  | update_next_display_time
  | is_time_to_draw
  | is_time_to_stop
deriving DecidableEq

/-- The state after one operation; the two queries return a `bool` and assign
no field. -/
def Op.apply (c : Common) : Op → Timer → Timer
  | Op.update_simulation_time, t => t.update_simulation_time c
  | Op.update_next_display_time, t => t.update_next_display_time
  | Op.is_time_to_draw, t => t
  | Op.is_time_to_stop, t => t

/-- The state after a sequence of operations, applied from left to right. -/
def Op.run (c : Common) (ops : List Op) (t : Timer) : Timer :=
  ops.foldl (fun s op => op.apply c s) t

/-- The call `a` occurs in `l`, and `b` too, the first `a` before the first `b`. -/
def precedes (a b : Action) (l : List Action) : Prop :=
  a ∈ l ∧ b ∈ l ∧ l.indexOf a < l.indexOf b

instance (a b : Action) (l : List Action) : Decidable (precedes a b l) := by
  unfold precedes; infer_instance

/-! ## Rounding to nearest, ties to even -/

theorem rnd_of_dvd {p a : ℕ} (hp : 0 < p) (h : p ∣ a) : rnd p a = a := by
  have hm : a % p = 0 := Nat.mod_eq_zero_of_dvd h
  simp [rnd, hm, hp, Nat.div_mul_cancel h]

theorem dvd_rnd (p a : ℕ) : p ∣ rnd p a := by
  unfold rnd
  split_ifs <;> exact Dvd.intro_left _ rfl

/-- The multiple of `p` chosen by `rnd` is within half of `p` of `a`. -/
theorem rnd_nearest {p a : ℕ} (hp : 0 < p) :
    2 * (rnd p a - a) ≤ p ∧ 2 * (a - rnd p a) ≤ p := by
  have ha := Nat.div_add_mod a p
  have hr := Nat.mod_lt a hp
  have hc : a / p * p = p * (a / p) := Nat.mul_comm _ _
  have hs : (a / p + 1) * p = p * (a / p) + p := by rw [Nat.add_mul, Nat.one_mul, hc]
  unfold rnd
  split_ifs <;> simp only [hc, hs] <;> omega

theorem rnd_mono {p a b : ℕ} (hp : 0 < p) (h : a ≤ b) : rnd p a ≤ rnd p b := by
  have ha := Nat.div_add_mod a p
  have hb := Nat.div_add_mod b p
  have hra := Nat.mod_lt a hp
  have hrb := Nat.mod_lt b hp
  have hq : a / p ≤ b / p := Nat.div_le_div_right h
  have hA : rnd p a ≤ (a / p + 1) * p := by
    unfold rnd
    split_ifs <;> nlinarith
  have hB : b / p * p ≤ rnd p b := by
    unfold rnd
    split_ifs <;> nlinarith
  rcases Nat.lt_or_ge (a / p) (b / p) with hlt | hge
  · calc rnd p a ≤ (a / p + 1) * p := hA
      _ ≤ b / p * p := Nat.mul_le_mul_right p hlt
      _ ≤ rnd p b := hB
  · have hqe : a / p = b / p := le_antisymm hq hge
    have hr : a % p ≤ b % p := by
      rw [hqe] at ha
      omega
    unfold rnd
    rw [hqe]
    split_ifs <;> first | omega | nlinarith

theorem ulpAux_spec : ∀ (fuel a : ℕ), a ≤ fuel →
    ∃ s, ulpAux fuel a = 2 ^ s ∧ a < 2 ^ 24 * 2 ^ s ∧ (s = 0 ∨ 2 ^ 23 * 2 ^ s ≤ a) := by
  intro fuel
  induction fuel with
  | zero =>
    intro a ha
    exact ⟨0, by simp [ulpAux], by omega, Or.inl rfl⟩
  | succ f ih =>
    intro a ha
    by_cases h : a < 2 ^ 24
    · exact ⟨0, by rw [ulpAux, if_pos h, pow_zero], by simpa using h, Or.inl rfl⟩
    · obtain ⟨s, hs, hlt, hlow⟩ := ih (a / 2) (by omega)
      refine ⟨s + 1, by rw [ulpAux, if_neg h, hs, pow_succ, Nat.mul_comm], ?_, Or.inr ?_⟩
      · rw [pow_succ]; omega
      · rw [pow_succ]
        rcases hlow with rfl | hl
        · simp at h ⊢; omega
        · omega

theorem ulp_spec (a : ℕ) :
    ∃ s, ulp a = 2 ^ s ∧ a < 2 ^ 24 * 2 ^ s ∧ (s = 0 ∨ 2 ^ 23 * 2 ^ s ≤ a) :=
  ulpAux_spec a a le_rfl

theorem ulp_pos (a : ℕ) : 0 < ulp a := by
  obtain ⟨s, hs, -, -⟩ := ulp_spec a
  rw [hs]; positivity


theorem ulp_cases {a b : ℕ} (hab : a ≤ b) :
    ulp a = ulp b ∨
      (a ≤ 2 ^ 23 * ulp b ∧ 2 ^ 23 * ulp b ≤ b ∧ ulp a ∣ 2 ^ 23 * ulp b) := by
  obtain ⟨s, hs, hlt, hlow⟩ := ulp_spec a
  obtain ⟨t, ht, hlt2, hlow2⟩ := ulp_spec b
  rw [hs, ht]
  rcases Nat.lt_trichotomy s t with h | h | h
  · right
    have hpow : 2 ^ (s + 1) ≤ 2 ^ t := Nat.pow_le_pow_right (by norm_num) h
    rw [pow_succ] at hpow
    refine ⟨by omega, ?_, ?_⟩
    · rcases hlow2 with rfl | hl
      · omega
      · exact hl
    · exact Dvd.dvd.mul_left (pow_dvd_pow 2 h.le) _
  · left; rw [h]
  · exfalso
    have hpow : 2 ^ (t + 1) ≤ 2 ^ s := Nat.pow_le_pow_right (by norm_num) h
    rw [pow_succ] at hpow
    rcases hlow with rfl | hl
    · omega
    · omega

theorem rne_mono {a b : ℕ} (hab : a ≤ b) : rne a ≤ rne b := by
  unfold rne
  rcases ulp_cases hab with h | ⟨h1, h2, h3⟩
  · rw [h]; exact rnd_mono (ulp_pos b) hab
  · calc rnd (ulp a) a ≤ rnd (ulp a) (2 ^ 23 * ulp b) := rnd_mono (ulp_pos a) h1
      _ = 2 ^ 23 * ulp b := rnd_of_dvd (ulp_pos a) h3
      _ = rnd (ulp b) (2 ^ 23 * ulp b) := (rnd_of_dvd (ulp_pos b) (Dvd.intro_left _ rfl)).symm
      _ ≤ rnd (ulp b) b := rnd_mono (ulp_pos b) h2

theorem rne_of_dvd {a : ℕ} (h : ulp a ∣ a) : rne a = a :=
  rnd_of_dvd (ulp_pos a) h

theorem ulp_rne_dvd (a : ℕ) : ulp (rne a) ∣ rne a := by
  obtain ⟨s, hs, hlt, -⟩ := ulp_spec a
  obtain ⟨t, ht, -, hlow⟩ := ulp_spec (rne a)
  have hdvd : 2 ^ s ∣ rne a := by
    have h0 : ulp a ∣ rne a := dvd_rnd (ulp a) a
    rwa [hs] at h0
  have hle : rne a ≤ 2 ^ 24 * 2 ^ s := by
    have h1 : rne a ≤ rnd (ulp a) (2 ^ 24 * 2 ^ s) := rnd_mono (ulp_pos a) hlt.le
    have h2 : ulp a ∣ 2 ^ 24 * 2 ^ s := by rw [hs]; exact Dvd.intro_left _ rfl
    rwa [rnd_of_dvd (ulp_pos a) h2] at h1
  rw [ht]
  rcases Nat.lt_or_ge s t with h | h
  · have hpow : 2 ^ (s + 1) ≤ 2 ^ t := Nat.pow_le_pow_right (by norm_num) h
    rw [pow_succ] at hpow
    rcases hlow with rfl | hl
    · omega
    · have : rne a = 2 ^ 23 * 2 ^ t := by omega
      rw [this]; exact Dvd.intro_left _ rfl
  · exact (pow_dvd_pow 2 h).trans hdvd

theorem rne_idem (a : ℕ) : rne (rne a) = rne a :=
  rne_of_dvd (ulp_rne_dvd a)

theorem rne_zero : rne 0 = 0 := rne_of_dvd (dvd_zero _)

/-! ## Signed rounding and binary32 values -/

theorem isF32_iff (m : ℤ) :
    isF32 m = true ↔ ulp m.natAbs ∣ m.natAbs ∧ m.natAbs < 2 ^ 277 := by
  simp only [isF32, decide_eq_true_eq, Nat.dvd_iff_mod_eq_zero]

theorem natAbs_roundInt (m : ℤ) : (roundInt m).natAbs = rne m.natAbs := by
  unfold roundInt
  split_ifs <;> simp

theorem roundInt_of_isF32 {m : ℤ} (h : isF32 m = true) : roundInt m = m := by
  have hr := rne_of_dvd ((isF32_iff m).1 h).1
  unfold roundInt
  rw [hr]
  split_ifs with hm <;> omega

theorem isF32_roundInt_iff (m : ℤ) :
    isF32 (roundInt m) = true ↔ rne m.natAbs < 2 ^ 277 := by
  rw [isF32_iff, natAbs_roundInt]
  exact ⟨fun h => h.2, fun h => ⟨ulp_rne_dvd _, h⟩⟩

theorem roundInt_mono {m n : ℤ} (h : m ≤ n) : roundInt m ≤ roundInt n := by
  unfold roundInt
  split_ifs with hm hn hn
  · have : rne n.natAbs ≤ rne m.natAbs := rne_mono (by omega)
    omega
  · have h1 : (0 : ℤ) ≤ (rne m.natAbs : ℤ) := Int.natCast_nonneg _
    have h2 : (0 : ℤ) ≤ (rne n.natAbs : ℤ) := Int.natCast_nonneg _
    omega
  · omega
  · have : rne m.natAbs ≤ rne n.natAbs := rne_mono (by omega)
    omega


namespace F32

theorem ofInt_of_isF32 {m : ℤ} (h : isF32 m = true) : ofInt m = fin m h := by
  have hr := roundInt_of_isF32 h
  unfold ofInt
  simp only [hr, h, dite_true]

theorem ofInt_cases (m : ℤ) :
    (∃ h, ofInt m = fin (roundInt m) h) ∨
      (ofInt m = inf (decide (m < 0)) ∧ 2 ^ 277 ≤ rne m.natAbs) := by
  unfold ofInt
  by_cases h : isF32 (roundInt m) = true
  · left; exact ⟨h, by rw [dif_pos h]⟩
  · right
    refine ⟨by rw [dif_neg h], ?_⟩
    rw [isF32_roundInt_iff] at h
    omega

theorem ofInt_ne_nan (m : ℤ) : ofInt m ≠ nan := by
  rcases ofInt_cases m with ⟨h, hm⟩ | ⟨hm, -⟩ <;> rw [hm] <;> simp

theorem zero_eq : zero = fin 0 (by decide!) := ofInt_of_isF32 _

/-- The literals: `0.01f` is `10737418 * 2^-30`, within half a unit in the
last place of `1/100`; `0.1f` is `13421773 * 2^-27`, within half a unit in the
last place of `1/10`; `1.0f` is `2^149` units. -/
theorem literals :
    lit_0_01.units = some (10737418 * ((2 ^ 119 : ℕ) : ℤ)) ∧
    2 * (2 ^ 30 - 100 * 10737418) ≤ 100 ∧
    lit_0_1.units = some (13421773 * ((2 ^ 122 : ℕ) : ℤ)) ∧
    2 * (10 * 13421773 - 2 ^ 27) ≤ 10 ∧
    one.units = some (((2 ^ 149 : ℕ) : ℤ)) ∧
    zero.units = some 0 := by
  decide!

theorem ge_ofInt {m n : ℤ} (hmn : m ≤ n) : ge (ofInt n) (ofInt m) = true := by
  have hr := roundInt_mono hmn
  rcases ofInt_cases m with ⟨h, hm⟩ | ⟨hm, hbig⟩ <;>
    rcases ofInt_cases n with ⟨h', hn⟩ | ⟨hn, hbig'⟩ <;> rw [hm, hn]
  · simpa [ge] using hr
  · simp only [ge, decide_eq_true_eq, Bool.not_eq_true', decide_eq_false_iff_not, not_lt]
    by_contra hneg
    push_neg at hneg
    have h1 : rne n.natAbs ≤ rne m.natAbs := rne_mono (by omega)
    have := (isF32_roundInt_iff m).1 h
    omega
  · simp only [ge, decide_eq_true_eq]
    by_contra hneg
    push_neg at hneg
    have h1 : rne m.natAbs ≤ rne n.natAbs := rne_mono (by omega)
    have := (isF32_roundInt_iff n).1 h'
    omega
  · simp only [ge, Bool.or_eq_true, Bool.not_eq_true', decide_eq_false_iff_not, not_lt,
      decide_eq_true_eq]
    omega


theorem ge_nan_left (x : F32) : ge nan x = false := by cases x <;> rfl

theorem ge_nan_right (x : F32) : ge x nan = false := by cases x <;> rfl

theorem ge_fin_fin (a b : ℤ) (ha : isF32 a = true) (hb : isF32 b = true) :
    ge (fin a ha) (fin b hb) = decide (b ≤ a) := rfl

theorem ge_inf_fin (s : Bool) (b : ℤ) (hb : isF32 b = true) :
    ge (inf s) (fin b hb) = !s := rfl

theorem ge_fin_inf (a : ℤ) (ha : isF32 a = true) (t : Bool) :
    ge (fin a ha) (inf t) = t := rfl

theorem ge_inf_inf (s t : Bool) : ge (inf s) (inf t) = (!s || t) := rfl

theorem add_nan_left (x : F32) : add nan x = nan := by cases x <;> rfl

theorem add_nan_right (x : F32) : add x nan = nan := by cases x <;> rfl

theorem add_fin_fin (a b : ℤ) (ha : isF32 a = true) (hb : isF32 b = true) :
    add (fin a ha) (fin b hb) = ofInt (a + b) := rfl

theorem add_inf_fin (s : Bool) (b : ℤ) (hb : isF32 b = true) :
    add (inf s) (fin b hb) = inf s := rfl

theorem add_fin_inf (a : ℤ) (ha : isF32 a = true) (t : Bool) :
    add (fin a ha) (inf t) = inf t := rfl

theorem add_inf_inf (s t : Bool) : add (inf s) (inf t) = if s = t then inf s else nan := rfl

theorem zero_add (x : F32) : add zero x = x := by
  rw [zero_eq]
  cases x with
  | fin m h => rw [add_fin_fin, Int.zero_add]; exact ofInt_of_isF32 h
  | inf s => rfl
  | nan => rfl

theorem add_zero (x : F32) : add x zero = x := by
  rw [zero_eq]
  cases x with
  | fin m h => rw [add_fin_fin, Int.add_zero]; exact ofInt_of_isF32 h
  | inf s => rfl
  | nan => rfl

theorem ge_self {x : F32} (h : x ≠ nan) : ge x x = true := by
  cases x with
  | fin m h => simp [ge_fin_fin]
  | inf s => cases s <;> rfl
  | nan => exact absurd rfl h

theorem ne_nan_of_ge_left {a b : F32} (h : ge a b = true) : a ≠ nan := by
  rintro rfl; simp [ge_nan_left] at h

theorem ne_nan_of_ge_right {a b : F32} (h : ge a b = true) : b ≠ nan := by
  rintro rfl; simp [ge_nan_right] at h

theorem ge_trans {a b c : F32} (h1 : ge a b = true) (h2 : ge b c = true) : ge a c = true := by
  cases a <;> cases b <;> cases c <;>
    simp_all [ge_fin_fin, ge_inf_fin, ge_fin_inf, ge_inf_inf, ge_nan_left, ge_nan_right] <;>
    first
      | omega
      | (rename_i s t u; cases s <;> cases t <;> cases u <;> simp_all)

theorem ge_total {a b : F32} (ha : a ≠ nan) (hb : b ≠ nan) :
    ge a b = true ∨ ge b a = true := by
  cases a <;> cases b <;>
    simp_all [ge_fin_fin, ge_inf_fin, ge_fin_inf, ge_inf_inf] <;>
    first
      | omega
      | (rename_i s t; cases s <;> cases t <;> simp)

theorem ge_inf_false {x : F32} (h : x ≠ nan) : ge (inf false) x = true := by
  cases x <;> simp_all [ge_inf_fin, ge_inf_inf]

theorem ge_inf_true {x : F32} (h : x ≠ nan) : ge x (inf true) = true := by
  cases x <;> simp_all [ge_fin_inf, ge_inf_inf]

theorem add_nonneg {a b : F32} (ha : ge a zero = true) (hb : ge b zero = true) :
    ge (add a b) zero = true := by
  cases a <;> cases b <;>
    simp_all [zero_eq, ge_fin_fin, ge_inf_fin, ge_fin_inf, ge_inf_inf, ge_nan_left,
      add_fin_fin, add_inf_fin, add_fin_inf, add_inf_inf]
  · rw [← zero_eq]; exact ge_ofInt (by omega)

theorem add_nonpos {a b : F32} (ha : ge zero a = true) (hb : ge zero b = true) :
    ge zero (add a b) = true := by
  cases a <;> cases b <;>
    simp_all [zero_eq, ge_fin_fin, ge_inf_fin, ge_fin_inf, ge_inf_inf, ge_nan_right,
      add_fin_fin, add_inf_fin, add_fin_inf, add_inf_inf]
  · rw [← zero_eq]; exact ge_ofInt (by omega)

theorem add_mono {a b a2 b2 : F32} (ha : ge a2 a = true) (hb : ge b2 b = true)
    (h1 : add a b ≠ nan) (h2 : add a2 b2 ≠ nan) : ge (add a2 b2) (add a b) = true := by
  cases a <;> cases b <;> cases a2 <;> cases b2 <;>
    simp_all [ge_fin_fin, ge_inf_fin, ge_fin_inf, ge_inf_inf, ge_nan_left, ge_nan_right,
      add_fin_fin, add_inf_fin, add_fin_inf, add_inf_inf, add_nan_left, add_nan_right,
      ge_inf_false, ge_inf_true, ofInt_ne_nan]
  · exact ge_ofInt (by omega)

end F32

namespace F32

theorem add_ofInt_exact {a b : ℤ} (ha : isF32 a = true) (hb : isF32 b = true) :
    add (ofInt a) (ofInt b) = ofInt (a + b) := by
  rw [ofInt_of_isF32 ha, ofInt_of_isF32 hb, add_fin_fin]

theorem ge_ofInt_iff {a b : ℤ} (ha : isF32 a = true) (hb : isF32 b = true) :
    ge (ofInt a) (ofInt b) = decide (b ≤ a) := by
  rw [ofInt_of_isF32 ha, ofInt_of_isF32 hb, ge_fin_fin]

theorem units_ofInt {a : ℤ} (ha : isF32 a = true) : (ofInt a).units = some a := by
  rw [ofInt_of_isF32 ha]; rfl

theorem units_add {x y : F32} {a b : ℤ} (hx : x.units = some a) (hy : y.units = some b)
    (hab : isF32 (a + b) = true) : (add x y).units = some (a + b) := by
  cases x <;> cases y <;> simp_all [units, add_fin_fin]
  exact units_ofInt hab

/-- The `k`-fold binary32 sum `0 + h + ... + h` is `k * h` as long as every
multiple of `h` up to the `k`-th is a binary32 value. -/
theorem iterate_add_exact (mh : ℤ) (n : ℕ)
    (hrep : ∀ k : ℕ, k ≤ n → isF32 (k * mh) = true) :
    ∀ k : ℕ, k ≤ n → (fun x => add x (ofInt mh))^[k] zero = ofInt (k * mh) := by
  intro k
  induction k with
  | zero => intro _; simp [zero]
  | succ k ih =>
    intro hk
    have h1 : isF32 mh = true := by simpa using hrep 1 (by omega)
    rw [Function.iterate_succ_apply', ih (by omega), add_ofInt_exact (hrep k (by omega)) h1]
    congr 1
    push_cast
    ring

/-- From `r`, the `d`-fold binary32 sum `r + r + ... + r` is `(d + 1) * r` as
long as every multiple of `r` up to that one is a binary32 value. -/
theorem iterate_add_exact_from (mr : ℤ) (d : ℕ)
    (hrep : ∀ k : ℕ, k ≤ d + 1 → isF32 (k * mr) = true) :
    (fun x => add x (ofInt mr))^[d] (ofInt mr) = ofInt ((d + 1 : ℕ) * mr) := by
  have h := iterate_add_exact mr (d + 1) hrep (d + 1) le_rfl
  rw [Function.iterate_succ_apply] at h
  have h1 : isF32 mr = true := by simpa using hrep 1 (by omega)
  have h0 : add zero (ofInt mr) = ofInt mr := zero_add _
  rw [h0] at h
  exact h

end F32

/-! ## Basic facts about the `Timer` operations -/

/-- The quotient `1/30` of two `int`s is `0`, and so is its conversion. -/
theorem refresh_interval_eq_zero : refresh_interval = F32.zero := by
  have h : Int.tdiv 1 30 = 0 := by decide
  simp [refresh_interval, F32.ofCInt, F32.scaled, F32.zero, h]

namespace Timer

theorem reset_eq (c : Common) (t : Timer) (r : F32) :
    reset c t r = ⟨F32.zero, c.k_time_step, r, r⟩ := by
  simp [reset, F32.zero_add]

/-- The state after `k` consecutive calls of `update_simulation_time`. -/
theorem iterate_update_simulation_time (c : Common) (t : Timer) (k : ℕ) :
    (update_simulation_time c)^[k] t =
      { t with simulation_time_ :=
          (fun x => F32.add x c.k_time_step)^[k] t.simulation_time_ } := by
  induction k with
  | zero => rfl
  | succ k ih =>
    rw [Function.iterate_succ_apply', Function.iterate_succ_apply', ih]
    rfl

/-- The state after `d` consecutive calls of `update_next_display_time`. -/
theorem iterate_update_next_display_time (t : Timer) (d : ℕ) :
    update_next_display_time^[d] t =
      { t with next_display_time_ :=
          (fun x => F32.add x t.refresh_interval_)^[d] t.next_display_time_ } := by
  induction d with
  | zero => rfl
  | succ d ih =>
    rw [Function.iterate_succ_apply', Function.iterate_succ_apply', ih]
    rfl

end Timer

namespace Op

theorem run_nil (c : Common) (t : Timer) : run c [] t = t := rfl

theorem run_concat (c : Common) (ops : List Op) (op : Op) (t : Timer) :
    run c (ops ++ [op]) t = op.apply c (run c ops t) := by
  simp [run, List.foldl_append]

/-- No operation after `reset` assigns `timestep_` or `refresh_interval_`. -/
theorem run_frame (c : Common) (ops : List Op) (t : Timer) :
    (run c ops t).timestep_ = t.timestep_ ∧
      (run c ops t).refresh_interval_ = t.refresh_interval_ := by
  induction ops using List.reverseRecOn with
  | nil => simp [run_nil]
  | append_singleton ops op ih =>
    rw [run_concat]
    cases op <;>
      simpa [apply, Timer.update_simulation_time, Timer.update_next_display_time] using ih

/-- After a sequence of operations, `next_display_time_` is the binary32 sum
obtained by adding `refresh_interval_` once for each
`update_next_display_time` in the sequence. -/
theorem run_next_display_time (c : Common) (ops : List Op) (t : Timer) :
    (run c ops t).next_display_time_ =
      (fun x => F32.add x t.refresh_interval_)^[ops.count Op.update_next_display_time]
        t.next_display_time_ := by
  induction ops using List.reverseRecOn with
  | nil => simp [run_nil]
  | append_singleton ops op ih =>
    rw [run_concat]
    have hf := (run_frame c ops t).2
    cases op
    · simpa [apply, Timer.update_simulation_time, List.count_append] using ih
    · simp only [apply, Timer.update_next_display_time, List.count_append, ih, hf,
        List.count_singleton, beq_self_eq_true, if_true, Function.iterate_succ_apply']
    · simpa [apply, List.count_append] using ih
    · simpa [apply, List.count_append] using ih

end Op

/-! ## Basic facts about the loop -/

namespace Renderer

variable {σ : Type}

theorem loop_body_timer (c : Common) (step : σ → σ) (r : Renderer σ) :
    (loop_body c step r).timer =
      Timer.update_simulation_time c
        (if r.timer.is_time_to_draw then r.timer.update_next_display_time else r.timer) := by
  unfold loop_body
  by_cases h : r.timer.is_time_to_draw = true <;> simp [emit, h]

theorem loop_body_sovler (c : Common) (step : σ → σ) (r : Renderer σ) :
    (loop_body c step r).sovler = step r.sovler := by
  unfold loop_body
  by_cases h : r.timer.is_time_to_draw = true <;> simp [emit, h]

theorem loop_body_log (c : Common) (step : σ → σ) (r : Renderer σ) :
    (loop_body c step r).log =
      r.log ++ (if r.timer.is_time_to_draw then draw_iteration else skip_iteration) := by
  unfold loop_body
  by_cases h : r.timer.is_time_to_draw = true <;>
    simp [emit, h, draw_iteration, skip_iteration]

theorem iterations_zero (c : Common) (step : σ → σ) (r : Renderer σ) :
    iterations c step 0 r = r := rfl

theorem iterations_succ (c : Common) (step : σ → σ) (k : ℕ) (r : Renderer σ) :
    iterations c step (k + 1) r = loop_body c step (iterations c step k r) := by
  simp only [iterations, Function.iterate_succ_apply']

theorem iterations_succ_left (c : Common) (step : σ → σ) (k : ℕ) (r : Renderer σ) :
    iterations c step (k + 1) r = iterations c step k (loop_body c step r) := by
  simp only [iterations, Function.iterate_succ_apply]

theorem iterations_sovler (c : Common) (step : σ → σ) (k : ℕ) (r : Renderer σ) :
    (iterations c step k r).sovler = step^[k] r.sovler := by
  induction k with
  | zero => rfl
  | succ k ih => rw [iterations_succ, loop_body_sovler, ih, Function.iterate_succ_apply']

theorem iterations_simulation_time (c : Common) (step : σ → σ) (k : ℕ) (r : Renderer σ) :
    (iterations c step k r).timer.simulation_time_ =
      (fun x => F32.add x c.k_time_step)^[k] r.timer.simulation_time_ := by
  induction k with
  | zero => rfl
  | succ k ih =>
    rw [iterations_succ, loop_body_timer, Function.iterate_succ_apply', ← ih]
    by_cases h : (iterations c step k r).timer.is_time_to_draw = true
    · simp only [h, if_true, Timer.update_simulation_time, Timer.update_next_display_time]
    · simp only [h, Timer.update_simulation_time]
      simp only [Bool.false_eq_true, if_false]

theorem iterations_frame (c : Common) (step : σ → σ) (k : ℕ) (r : Renderer σ) :
    (iterations c step k r).timer.timestep_ = r.timer.timestep_ ∧
      (iterations c step k r).timer.refresh_interval_ = r.timer.refresh_interval_ := by
  induction k with
  | zero => simp [iterations_zero]
  | succ k ih =>
    rw [iterations_succ, loop_body_timer]
    by_cases h : (iterations c step k r).timer.is_time_to_draw = true <;>
      simpa [h, Timer.update_simulation_time, Timer.update_next_display_time] using ih

/-- When the guard holds at the first `n` evaluations and fails at the next
one, the loop returns after exactly `n` executions of its body, provided the
bound allows `n + 1` evaluations of the guard. -/
theorem start_looping_eq (c : Common) (step : σ → σ) (shouldClose : ℕ → Bool) (n : ℕ) :
    ∀ (fuel i : ℕ) (r : Renderer σ), n < fuel →
      (∀ j, j < n → loop_guard c shouldClose (i + j) (iterations c step j r) = true) →
      loop_guard c shouldClose (i + n) (iterations c step n r) = false →
      start_looping c step shouldClose fuel i r = some (iterations c step n r) := by
  induction n with
  | zero =>
    intro fuel i r hf _ hstop
    obtain ⟨f, rfl⟩ : ∃ f, fuel = f + 1 := ⟨fuel - 1, by omega⟩
    simp only [iterations_zero, Nat.add_zero] at hstop
    simp [start_looping, hstop, iterations_zero]
  | succ n ih =>
    intro fuel i r hf hgo hstop
    obtain ⟨f, rfl⟩ : ∃ f, fuel = f + 1 := ⟨fuel - 1, by omega⟩
    have h0 : loop_guard c shouldClose i r = true := by
      simpa [iterations_zero] using hgo 0 (Nat.succ_pos n)
    rw [start_looping, if_pos h0, iterations_succ_left]
    apply ih f (i + 1) (loop_body c step r) (by omega)
    · intro j hj
      have := hgo (j + 1) (by omega)
      rwa [iterations_succ_left, ← Nat.add_assoc, Nat.add_right_comm] at this
    · rwa [iterations_succ_left, ← Nat.add_assoc, Nat.add_right_comm] at hstop

/-- Whenever the loop returns, it has executed its body some number `n` of
times: the guard held at the head of iterations `0 .. n-1` and failed at the
head of iteration `n`, and the state returned is the one at that head. -/
theorem start_looping_some (c : Common) (step : σ → σ) (shouldClose : ℕ → Bool) :
    ∀ (fuel i : ℕ) (r res : Renderer σ),
      start_looping c step shouldClose fuel i r = some res →
      ∃ n, n < fuel ∧ res = iterations c step n r ∧
        (∀ j, j < n → loop_guard c shouldClose (i + j) (iterations c step j r) = true) ∧
        loop_guard c shouldClose (i + n) (iterations c step n r) = false := by
  intro fuel
  induction fuel with
  | zero => intro i r res h; simp [start_looping] at h
  | succ f ih =>
    intro i r res h
    by_cases hg : loop_guard c shouldClose i r = true
    · rw [start_looping, if_pos hg] at h
      obtain ⟨n, hn, hres, hgo, hstop⟩ := ih (i + 1) _ res h
      refine ⟨n + 1, by omega, ?_, ?_, ?_⟩
      · rw [iterations_succ_left]; exact hres
      · intro j hj
        cases j with
        | zero => simpa [iterations_zero] using hg
        | succ j =>
          have := hgo j (by omega)
          rwa [iterations_succ_left, ← Nat.add_assoc, Nat.add_right_comm]
      · rwa [iterations_succ_left, ← Nat.add_assoc, Nat.add_right_comm]
    · rw [start_looping, if_neg hg] at h
      refine ⟨0, by omega, ?_, ?_, ?_⟩
      · simpa [iterations_zero] using h.symm
      · intro j hj; omega
      · simpa [iterations_zero] using hg

theorem iteration_actions_eq (c : Common) (step : σ → σ) (r : Renderer σ) :
    iteration_actions c step r =
      if r.timer.is_time_to_draw then draw_iteration else skip_iteration := by
  simp [iteration_actions, loop_body_log]

theorem iterations_count_update_simulation_time (c : Common) (step : σ → σ) (k : ℕ)
    (r : Renderer σ) :
    (iterations c step k r).log.count Action.update_simulation_time =
      r.log.count Action.update_simulation_time + k := by
  induction k with
  | zero => simp [iterations_zero]
  | succ k ih =>
    rw [iterations_succ, loop_body_log, List.count_append, ih]
    by_cases h : (iterations c step k r).timer.is_time_to_draw = true <;>
      simp [h, draw_iteration, skip_iteration] <;> omega

theorem iterations_count_compute_next_state (c : Common) (step : σ → σ) (k : ℕ)
    (r : Renderer σ) :
    (iterations c step k r).log.count Action.compute_next_state =
      r.log.count Action.compute_next_state + k := by
  induction k with
  | zero => simp [iterations_zero]
  | succ k ih =>
    rw [iterations_succ, loop_body_log, List.count_append, ih]
    by_cases h : (iterations c step k r).timer.is_time_to_draw = true <;>
      simp [h, draw_iteration, skip_iteration] <;> omega

theorem loop_body_fields (c : Common) (step : σ → σ) (r : Renderer σ) :
    (loop_body c step r).timer.simulation_time_ =
        F32.add r.timer.simulation_time_ c.k_time_step ∧
      (loop_body c step r).timer.next_display_time_ =
        (if r.timer.is_time_to_draw then
          F32.add r.timer.next_display_time_ r.timer.refresh_interval_
        else r.timer.next_display_time_) ∧
      (loop_body c step r).timer.refresh_interval_ = r.timer.refresh_interval_ ∧
      (loop_body c step r).timer.timestep_ = r.timer.timestep_ := by
  rw [loop_body_timer]
  by_cases h : r.timer.is_time_to_draw = true <;>
    simp [h, Timer.update_simulation_time, Timer.update_next_display_time]

end Renderer

namespace F32

theorem zero_ne_nan : zero ≠ nan := ofInt_ne_nan 0

theorem add_ne_nan_of_sign {x d : F32} (hd : d ≠ nan)
    (h1 : ge d zero = true → ge x zero = true)
    (h2 : ge zero d = true → ge zero x = true) : add x d ≠ nan := by
  rcases ge_total hd zero_ne_nan with h | h
  · exact ne_nan_of_ge_left (add_nonneg (h1 h) h)
  · exact ne_nan_of_ge_right (add_nonpos (h2 h) h)

theorem iterate_add_nonneg {h : F32} (hh : ge h zero = true) (k : ℕ) :
    ge ((fun x => add x h)^[k] zero) zero = true := by
  induction k with
  | zero => exact ge_self zero_ne_nan
  | succ k ih =>
    rw [Function.iterate_succ_apply']
    exact add_nonneg ih hh

end F32

namespace Renderer

variable {σ : Type}

/-- After `reset(r)`, at the head of every iteration `simulation_time_` has
the sign of the step and `next_display_time_` the sign of `r`, so neither
addition of the loop body can produce a NaN. -/
theorem iterations_sign (c : Common) (step : σ → σ) (t0 : Timer) (r : F32) (s0 : σ)
    (log : List Action) (k : ℕ) :
    ((F32.ge c.k_time_step F32.zero = true →
        F32.ge (iterations c step k
          ⟨Timer.reset c t0 r, s0, log⟩).timer.simulation_time_ F32.zero = true) ∧
      (F32.ge F32.zero c.k_time_step = true →
        F32.ge F32.zero (iterations c step k
          ⟨Timer.reset c t0 r, s0, log⟩).timer.simulation_time_ = true)) ∧
    ((F32.ge r F32.zero = true →
        F32.ge (iterations c step k
          ⟨Timer.reset c t0 r, s0, log⟩).timer.next_display_time_ F32.zero = true) ∧
      (F32.ge F32.zero r = true →
        F32.ge F32.zero (iterations c step k
          ⟨Timer.reset c t0 r, s0, log⟩).timer.next_display_time_ = true)) := by
  induction k with
  | zero =>
    simp only [iterations_zero, Timer.reset_eq]
    exact ⟨⟨fun _ => F32.ge_self F32.zero_ne_nan, fun _ => F32.ge_self F32.zero_ne_nan⟩,
      ⟨fun h => h, fun h => h⟩⟩
  | succ k ih =>
    obtain ⟨⟨hs1, hs2⟩, ⟨hn1, hn2⟩⟩ := ih
    have hf := (iterations_frame c step k ⟨Timer.reset c t0 r, s0, log⟩).2
    rw [Timer.reset_eq] at hf hs1 hs2 hn1 hn2
    obtain ⟨e1, e2, -, -⟩ :=
      loop_body_fields c step (iterations c step k ⟨⟨F32.zero, c.k_time_step, r, r⟩, s0, log⟩)
    rw [iterations_succ, Timer.reset_eq, e1, e2, hf]
    refine ⟨⟨fun h => F32.add_nonneg (hs1 h) h, fun h => F32.add_nonpos (hs2 h) h⟩, ?_, ?_⟩
    · intro h
      split_ifs
      · exact F32.add_nonneg (hn1 h) h
      · exact hn1 h
    · intro h
      split_ifs
      · exact F32.add_nonpos (hn2 h) h
      · exact hn2 h

/-- With a refresh interval below the step, from the head of the second
iteration on `next_display_time_` never exceeds `simulation_time_`. -/
theorem ge_next_display_time_of_lt (c : Common) (step : σ → σ)
    (t0 : Timer) (r : F32) (s0 : σ) (log : List Action)
    (hr : F32.lt r c.k_time_step = true) (k : ℕ) :
    F32.ge
      (iterations c step (k + 1) ⟨Timer.reset c t0 r, s0, log⟩).timer.simulation_time_
      (iterations c step (k + 1) ⟨Timer.reset c t0 r, s0, log⟩).timer.next_display_time_ =
      true := by
  have hge : F32.ge c.k_time_step r = true := by
    simp only [F32.lt, Bool.and_eq_true] at hr
    exact hr.1
  have hrn : r ≠ F32.nan := F32.ne_nan_of_ge_right hge
  have hhn : c.k_time_step ≠ F32.nan := F32.ne_nan_of_ge_left hge
  induction k with
  | zero =>
    obtain ⟨e1, e2, -, -⟩ :=
      loop_body_fields c step (⟨⟨F32.zero, c.k_time_step, r, r⟩, s0, log⟩ : Renderer σ)
    rw [iterations_succ, iterations_zero, Timer.reset_eq, e1, e2]
    simp only [Timer.is_time_to_draw, F32.zero_add]
    by_cases h0 : F32.ge F32.zero r = true
    · rw [if_pos h0]
      have hnn : F32.add r r ≠ F32.nan := F32.ne_nan_of_ge_right (F32.add_nonpos h0 h0)
      have h1 : F32.ge (F32.add F32.zero r) (F32.add r r) = true :=
        F32.add_mono h0 (F32.ge_self hrn) hnn (by rw [F32.zero_add]; exact hrn)
      rw [F32.zero_add] at h1
      exact F32.ge_trans hge h1
    · rw [if_neg h0]
      exact hge
  | succ k ih =>
    obtain ⟨⟨hs1, hs2⟩, ⟨hn1, hn2⟩⟩ := iterations_sign c step t0 r s0 log (k + 1)
    have hf := (iterations_frame c step (k + 1) ⟨Timer.reset c t0 r, s0, log⟩).2
    obtain ⟨e1, e2, -, -⟩ :=
      loop_body_fields c step (iterations c step (k + 1) ⟨Timer.reset c t0 r, s0, log⟩)
    have hd : (iterations c step (k + 1)
        ⟨Timer.reset c t0 r, s0, log⟩).timer.is_time_to_draw = true := ih
    rw [iterations_succ c step (k + 1), e1, e2, hd, if_pos rfl, hf]
    simp only [Timer.reset_eq]
    simp only [Timer.reset_eq] at hs1 hs2 hn1 hn2 ih
    exact F32.add_mono ih hge (F32.add_ne_nan_of_sign hrn hn1 hn2)
      (F32.add_ne_nan_of_sign hhn hs1 hs2)

end Renderer

/-! ## Claims that rounding leaves untouched -/

/-- C7. `reset` applied to any prior state returns the state with
`simulation_time_ = 0`, `timestep_ = k_time_step`, `refresh_interval_` the
argument and `next_display_time_` the argument (`0.0f + r` is `r` for every
binary32 `r`); two prior states give the same result;
`Renderer::initialize` leaves the timer in that state for the global
`refresh_interval`. -/
theorem reset_any_state (c : Common) (t t2 : Timer) (r : F32) (σ : Type) (rd : Renderer σ) :
    (Timer.reset c t r).simulation_time_ = F32.zero ∧
    (Timer.reset c t r).next_display_time_ = r ∧
    (Timer.reset c t r).refresh_interval_ = r ∧
    (Timer.reset c t r).timestep_ = c.k_time_step ∧
    Timer.reset c t r = Timer.reset c t2 r ∧
    (∀ ops : List Op, ∀ r0 : F32,
      Timer.reset c (Op.run c ops (Timer.reset c t r0)) r = ⟨F32.zero, c.k_time_step, r, r⟩) ∧
    (Renderer.initialize_timer c rd).timer =
      ⟨F32.zero, c.k_time_step, refresh_interval, refresh_interval⟩ := by
  simp [Timer.reset_eq, Renderer.initialize_timer]

/-- C4, the failing case: in the first iteration after `Renderer::initialize`
a draw is due, and the iteration calls `update_next_display_time` third and
`draw` sixth, so `draw` does not precede `update_next_display_time`. -/
theorem draw_after_display_advance :
    (Renderer.initialize_timer (Common.mk F32.lit_0_01 F32.one)
        (Renderer.mk ⟨F32.zero, F32.zero, F32.zero, F32.zero⟩ 0 [])).timer.is_time_to_draw =
      true ∧
    Renderer.iteration_actions (Common.mk F32.lit_0_01 F32.one) Nat.succ
        (Renderer.initialize_timer (Common.mk F32.lit_0_01 F32.one)
          (Renderer.mk ⟨F32.zero, F32.zero, F32.zero, F32.zero⟩ 0 [])) =
      [Action.processInput, Action.glfwPollEvents, Action.update_next_display_time,
       Action.glBindBuffer, Action.glBufferSubData, Action.draw,
       Action.compute_next_state, Action.update_simulation_time] ∧
    ¬ precedes Action.draw Action.update_next_display_time
      (Renderer.iteration_actions (Common.mk F32.lit_0_01 F32.one) Nat.succ
        (Renderer.initialize_timer (Common.mk F32.lit_0_01 F32.one)
          (Renderer.mk ⟨F32.zero, F32.zero, F32.zero, F32.zero⟩ 0 []))) := by
  have h : (Renderer.initialize_timer (Common.mk F32.lit_0_01 F32.one)
      (Renderer.mk ⟨F32.zero, F32.zero, F32.zero, F32.zero⟩ 0 [])).timer.is_time_to_draw =
      true := by
    simp [Renderer.initialize_timer, Timer.reset_eq, Timer.is_time_to_draw,
      refresh_interval_eq_zero, F32.ge_self F32.zero_ne_nan]
  refine ⟨h, ?_, ?_⟩
  · rw [Renderer.iteration_actions_eq, h]; rfl
  · rw [Renderer.iteration_actions_eq, h]; decide

/-- C4, amended. The loop body appends `iteration_actions` to the log. In an
iteration in which `is_time_to_draw()` is true these contain exactly one
`draw` and exactly one `update_next_display_time`, the latter before the
former, and `next_display_time_` becomes the binary32 sum of itself and
`refresh_interval_`; in an iteration in which it is false they contain
neither and `next_display_time_` is unchanged. -/
theorem display_advance_once_per_draw {σ : Type} (c : Common) (step : σ → σ)
    (r : Renderer σ) :
    (Renderer.loop_body c step r).log = r.log ++ Renderer.iteration_actions c step r ∧
    (r.timer.is_time_to_draw = true →
      (Renderer.iteration_actions c step r).count Action.draw = 1 ∧
      (Renderer.iteration_actions c step r).count Action.update_next_display_time = 1 ∧
      precedes Action.update_next_display_time Action.draw
        (Renderer.iteration_actions c step r) ∧
      (Renderer.loop_body c step r).timer.next_display_time_ =
        F32.add r.timer.next_display_time_ r.timer.refresh_interval_) ∧
    (r.timer.is_time_to_draw = false →
      (Renderer.iteration_actions c step r).count Action.draw = 0 ∧
      (Renderer.iteration_actions c step r).count Action.update_next_display_time = 0 ∧
      (Renderer.loop_body c step r).timer.next_display_time_ =
        r.timer.next_display_time_) := by
  refine ⟨?_, ?_, ?_⟩
  · rw [Renderer.iteration_actions_eq, Renderer.loop_body_log]
  · intro h
    rw [Renderer.iteration_actions_eq, (Renderer.loop_body_fields c step r).2.1, h]
    exact ⟨by decide, by decide, by decide, rfl⟩
  · intro h
    rw [Renderer.iteration_actions_eq, (Renderer.loop_body_fields c step r).2.1, h]
    exact ⟨by decide, by decide, rfl⟩

/-- C4, amended, at the first iteration after `Renderer::initialize`, in which
a draw is due. -/
theorem display_advance_once_per_draw_witness :
    (Renderer.initialize_timer (Common.mk F32.lit_0_01 F32.one)
        (Renderer.mk ⟨F32.zero, F32.zero, F32.zero, F32.zero⟩ 0 [])).timer.is_time_to_draw =
      true ∧
    ((Renderer.iteration_actions (Common.mk F32.lit_0_01 F32.one) Nat.succ
        (Renderer.initialize_timer (Common.mk F32.lit_0_01 F32.one)
          (Renderer.mk ⟨F32.zero, F32.zero, F32.zero, F32.zero⟩ 0 []))).count Action.draw = 1 ∧
      (Renderer.iteration_actions (Common.mk F32.lit_0_01 F32.one) Nat.succ
        (Renderer.initialize_timer (Common.mk F32.lit_0_01 F32.one)
          (Renderer.mk ⟨F32.zero, F32.zero, F32.zero, F32.zero⟩ 0 []))).count
        Action.update_next_display_time = 1 ∧
      precedes Action.update_next_display_time Action.draw
        (Renderer.iteration_actions (Common.mk F32.lit_0_01 F32.one) Nat.succ
          (Renderer.initialize_timer (Common.mk F32.lit_0_01 F32.one)
            (Renderer.mk ⟨F32.zero, F32.zero, F32.zero, F32.zero⟩ 0 []))) ∧
      (Renderer.loop_body (Common.mk F32.lit_0_01 F32.one) Nat.succ
        (Renderer.initialize_timer (Common.mk F32.lit_0_01 F32.one)
          (Renderer.mk ⟨F32.zero, F32.zero, F32.zero, F32.zero⟩ 0 []))).timer.next_display_time_ =
        F32.add
          (Renderer.initialize_timer (Common.mk F32.lit_0_01 F32.one)
            (Renderer.mk ⟨F32.zero, F32.zero, F32.zero, F32.zero⟩ 0 [])).timer.next_display_time_
          (Renderer.initialize_timer (Common.mk F32.lit_0_01 F32.one)
            (Renderer.mk ⟨F32.zero, F32.zero, F32.zero, F32.zero⟩ 0 [])).timer.refresh_interval_) :=
  have h : (Renderer.initialize_timer (Common.mk F32.lit_0_01 F32.one)
      (Renderer.mk ⟨F32.zero, F32.zero, F32.zero, F32.zero⟩ 0 [])).timer.is_time_to_draw =
      true := by
    simp [Renderer.initialize_timer, Timer.reset_eq, Timer.is_time_to_draw,
      refresh_interval_eq_zero, F32.ge_self F32.zero_ne_nan]
  ⟨h, (display_advance_once_per_draw (Common.mk F32.lit_0_01 F32.one) Nat.succ
    (Renderer.initialize_timer (Common.mk F32.lit_0_01 F32.one)
      (Renderer.mk ⟨F32.zero, F32.zero, F32.zero, F32.zero⟩ 0 []))).2.1 h⟩

/-- C5. With a refresh interval `r` below the step size, after `reset(r)` a
draw is due at the head of every loop iteration that follows a completed step
(iterations `1, 2, ...` counted from 0), and that iteration calls `draw`. -/
theorem draw_every_step_of_small_interval {σ : Type} (c : Common) (step : σ → σ)
    (t0 : Timer) (r : F32) (s0 : σ) (k : ℕ) (hr : F32.lt r c.k_time_step = true)
    (hk : 1 ≤ k) :
    (Renderer.iterations c step k ⟨Timer.reset c t0 r, s0, []⟩).timer.is_time_to_draw = true ∧
    Renderer.iteration_actions c step
        (Renderer.iterations c step k ⟨Timer.reset c t0 r, s0, []⟩) =
      [Action.processInput, Action.glfwPollEvents, Action.update_next_display_time,
       Action.glBindBuffer, Action.glBufferSubData, Action.draw,
       Action.compute_next_state, Action.update_simulation_time] := by
  obtain ⟨j, rfl⟩ : ∃ j, k = j + 1 := ⟨k - 1, by omega⟩
  have hd : (Renderer.iterations c step (j + 1)
      ⟨Timer.reset c t0 r, s0, []⟩).timer.is_time_to_draw = true :=
    Renderer.ge_next_display_time_of_lt c step t0 r s0 [] hr j
  refine ⟨hd, ?_⟩
  rw [Renderer.iteration_actions_eq, hd]
  rfl

/-- C5 at step `0.01f`, refresh interval `2^-10`, head of the fourth iteration. -/
theorem draw_every_step_of_small_interval_witness :
    F32.lt (F32.scaled 1 139) (Common.mk F32.lit_0_01 F32.one).k_time_step = true ∧ 1 ≤ 3 ∧
    (Renderer.iterations (Common.mk F32.lit_0_01 F32.one) Nat.succ 3
      ⟨Timer.reset (Common.mk F32.lit_0_01 F32.one) ⟨F32.zero, F32.zero, F32.zero, F32.zero⟩
        (F32.scaled 1 139), 0, []⟩).timer.is_time_to_draw = true :=
  ⟨by decide!, by decide,
    (draw_every_step_of_small_interval (Common.mk F32.lit_0_01 F32.one) Nat.succ
      ⟨F32.zero, F32.zero, F32.zero, F32.zero⟩ (F32.scaled 1 139) 0 3 (by decide!)
      (by decide)).1⟩

/-- After `Renderer::initialize`, `next_display_time_` is `0` at the head of
every iteration. -/
theorem Renderer.next_display_time_initialize {σ : Type} (c : Common) (step : σ → σ)
    (rd : Renderer σ) (k : ℕ) :
    (Renderer.iterations c step k
      (Renderer.initialize_timer c rd)).timer.next_display_time_ = F32.zero := by
  induction k with
  | zero =>
    simp [Renderer.iterations_zero, Renderer.initialize_timer, Timer.reset_eq,
      refresh_interval_eq_zero]
  | succ k ih =>
    have hf := (Renderer.iterations_frame c step k (Renderer.initialize_timer c rd)).2
    obtain ⟨-, e2, -, -⟩ :=
      Renderer.loop_body_fields c step (Renderer.iterations c step k
        (Renderer.initialize_timer c rd))
    rw [Renderer.iterations_succ, e2, hf, ih]
    simp only [Renderer.initialize_timer, Timer.reset_eq, refresh_interval_eq_zero,
      F32.zero_add, ite_self]

theorem Renderer.iterations_count_draw_of_due {σ : Type} (c : Common) (step : σ → σ)
    (r : Renderer σ)
    (hdue : ∀ j, (Renderer.iterations c step j r).timer.is_time_to_draw = true) (k : ℕ) :
    (Renderer.iterations c step k r).log.count Action.draw = r.log.count Action.draw + k := by
  induction k with
  | zero => simp [Renderer.iterations_zero]
  | succ k ih =>
    rw [Renderer.iterations_succ, Renderer.loop_body_log, List.count_append, ih, hdue k]
    simp [draw_iteration]
    omega

/-- C10. The global `refresh_interval`, written `(1/30)`, is `0`.
`Renderer::initialize` resets the timer with it, so `next_display_time_` is `0`
after the reset and after any number of calls of `update_next_display_time`;
for a step size `>= 0` a draw is due at the head of every loop iteration, the
first included, every iteration calls `draw`, and after `k` iterations `draw`
has been called `k` times. -/
theorem zero_refresh_interval_draws_every_step {σ : Type} (c : Common) (step : σ → σ)
    (t0 : Timer) (s0 : σ) (k d : ℕ) (hh : F32.ge c.k_time_step F32.zero = true) :
    refresh_interval = F32.zero ∧
    (Renderer.initialize_timer c (Renderer.mk t0 s0 [])).timer.next_display_time_ = F32.zero ∧
    (Timer.update_next_display_time^[d]
      (Renderer.initialize_timer c (Renderer.mk t0 s0 [])).timer).next_display_time_ =
      F32.zero ∧
    (Renderer.iterations c step k
      (Renderer.initialize_timer c (Renderer.mk t0 s0 []))).timer.next_display_time_ =
      F32.zero ∧
    (Renderer.iterations c step k
      (Renderer.initialize_timer c (Renderer.mk t0 s0 []))).timer.is_time_to_draw = true ∧
    Renderer.iteration_actions c step
        (Renderer.iterations c step k (Renderer.initialize_timer c (Renderer.mk t0 s0 []))) =
      [Action.processInput, Action.glfwPollEvents, Action.update_next_display_time,
       Action.glBindBuffer, Action.glBufferSubData, Action.draw,
       Action.compute_next_state, Action.update_simulation_time] ∧
    (Renderer.iterations c step k
      (Renderer.initialize_timer c (Renderer.mk t0 s0 []))).log.count Action.draw = k := by
  have hdue : ∀ j, (Renderer.iterations c step j
      (Renderer.initialize_timer c (Renderer.mk t0 s0 []))).timer.is_time_to_draw = true := by
    intro j
    rw [Timer.is_time_to_draw, Renderer.next_display_time_initialize,
      Renderer.iterations_simulation_time]
    simp only [Renderer.initialize_timer, Timer.reset_eq]
    exact F32.iterate_add_nonneg hh j
  refine ⟨refresh_interval_eq_zero, ?_, ?_, Renderer.next_display_time_initialize c step _ k,
    hdue k, ?_, ?_⟩
  · simp [Renderer.initialize_timer, Timer.reset_eq, refresh_interval_eq_zero]
  · rw [Timer.iterate_update_next_display_time]
    simp only [Renderer.initialize_timer, Timer.reset_eq, refresh_interval_eq_zero]
    induction d with
    | zero => rfl
    | succ d ih => rw [Function.iterate_succ_apply', ih, F32.zero_add]
  · rw [Renderer.iteration_actions_eq, hdue k]
    rfl
  · rw [Renderer.iterations_count_draw_of_due c step _ hdue k]
    simp [Renderer.initialize_timer]

/-- C10 at step `0.01f`: head of the third iteration, after four display advances. -/
theorem zero_refresh_interval_draws_every_step_witness :
    F32.ge (Common.mk F32.lit_0_01 F32.one).k_time_step F32.zero = true ∧
    (Renderer.iterations (Common.mk F32.lit_0_01 F32.one) Nat.succ 2
      (Renderer.initialize_timer (Common.mk F32.lit_0_01 F32.one)
        (Renderer.mk ⟨F32.zero, F32.zero, F32.zero, F32.zero⟩ 0 []))).timer.is_time_to_draw =
      true :=
  ⟨by decide!,
    (zero_refresh_interval_draws_every_step (Common.mk F32.lit_0_01 F32.one) Nat.succ
      ⟨F32.zero, F32.zero, F32.zero, F32.zero⟩ 0 2 4 (by decide!)).2.2.2.2.1⟩

/-! ## Claims that hold only where the additions are exact -/

/-- C1, the failing case. With step `0.01f` and refresh interval
`8 * 0.01f = 85899344 * 2^-30` (a binary32 value, so `r = n * h` holds exactly
with `n = 8`), eight calls of `update_simulation_time` give
`simulation_time_ = 85899336 * 2^-30`, below `r`: `is_time_to_draw()` is still
false after the eighth call and first true after the ninth. With step `0.01f`
and refresh interval `0.1f` it is false after the tenth call and first true
after the eleventh. -/
theorem clock_draw_gating_rounds :
    F32.lit_0_01.units = some (10737418 * ((2 ^ 119 : ℕ) : ℤ)) ∧
    (F32.scaled (8 * 10737418) 119).units = some (8 * (10737418 * ((2 ^ 119 : ℕ) : ℤ))) ∧
    ((Timer.update_simulation_time (Common.mk F32.lit_0_01 F32.one))^[8]
      (Timer.reset (Common.mk F32.lit_0_01 F32.one) ⟨F32.zero, F32.zero, F32.zero, F32.zero⟩
        (F32.scaled (8 * 10737418) 119))).simulation_time_.units =
      some (85899336 * ((2 ^ 119 : ℕ) : ℤ)) ∧
    ((Timer.update_simulation_time (Common.mk F32.lit_0_01 F32.one))^[8]
      (Timer.reset (Common.mk F32.lit_0_01 F32.one) ⟨F32.zero, F32.zero, F32.zero, F32.zero⟩
        (F32.scaled (8 * 10737418) 119))).is_time_to_draw = false ∧
    ((Timer.update_simulation_time (Common.mk F32.lit_0_01 F32.one))^[9]
      (Timer.reset (Common.mk F32.lit_0_01 F32.one) ⟨F32.zero, F32.zero, F32.zero, F32.zero⟩
        (F32.scaled (8 * 10737418) 119))).is_time_to_draw = true ∧
    ((Timer.update_simulation_time (Common.mk F32.lit_0_01 F32.one))^[10]
      (Timer.reset (Common.mk F32.lit_0_01 F32.one) ⟨F32.zero, F32.zero, F32.zero, F32.zero⟩
        F32.lit_0_1)).is_time_to_draw = false ∧
    ((Timer.update_simulation_time (Common.mk F32.lit_0_01 F32.one))^[11]
      (Timer.reset (Common.mk F32.lit_0_01 F32.one) ⟨F32.zero, F32.zero, F32.zero, F32.zero⟩
        F32.lit_0_1)).is_time_to_draw = true := by
  decide!

/-- C1, amended. `is_time_to_draw` is the binary32 comparison
`simulation_time_ >= next_display_time_`. For a step `h > 0` and a number `n`
of steps such that the multiples `k * h`, `k ≤ n`, and `2 * n * h` are binary32
values (no addition rounds), after `reset(n * h)` the query is false after
every number `k < n` of calls of `update_simulation_time` and true after `n`
calls; one call of `update_next_display_time` then makes `next_display_time_`
twice the refresh interval. (`mh` is `h` in units of `2^-149`.) -/
theorem clock_draw_gating (c : Common) (t0 : Timer) (mh : ℤ) (n : ℕ)
    (hc : c.k_time_step = F32.ofInt mh) (hh : 0 < mh)
    (hrep : ∀ k : ℕ, k ≤ n → isF32 (k * mh) = true)
    (hrep2 : isF32 (2 * (n * mh)) = true) :
    (∀ t : Timer, t.is_time_to_draw = F32.ge t.simulation_time_ t.next_display_time_) ∧
    (∀ k, k < n →
      ((Timer.update_simulation_time c)^[k]
        (Timer.reset c t0 (F32.ofInt (n * mh)))).is_time_to_draw = false) ∧
    ((Timer.update_simulation_time c)^[n]
        (Timer.reset c t0 (F32.ofInt (n * mh)))).is_time_to_draw = true ∧
    (Timer.update_next_display_time ((Timer.update_simulation_time c)^[n]
        (Timer.reset c t0 (F32.ofInt (n * mh))))).next_display_time_.units =
      some (2 * (n * mh)) := by
  have hsim : ∀ k : ℕ, k ≤ n →
      (Timer.update_simulation_time c)^[k] (Timer.reset c t0 (F32.ofInt (n * mh))) =
        ⟨F32.ofInt (k * mh), c.k_time_step, F32.ofInt (n * mh), F32.ofInt (n * mh)⟩ := by
    intro k hk
    rw [Timer.iterate_update_simulation_time, Timer.reset_eq, hc]
    simp only [F32.iterate_add_exact mh n hrep k hk]
  refine ⟨fun _ => rfl, ?_, ?_, ?_⟩
  · intro k hk
    rw [hsim k hk.le]
    simp only [Timer.is_time_to_draw]
    rw [F32.ge_ofInt_iff (hrep k hk.le) (hrep n le_rfl), decide_eq_false_iff_not, not_le]
    have hkn : (k : ℤ) < n := by exact_mod_cast hk
    exact mul_lt_mul_of_pos_right hkn hh
  · rw [hsim n le_rfl]
    simp only [Timer.is_time_to_draw]
    rw [F32.ge_ofInt_iff (hrep n le_rfl) (hrep n le_rfl)]
    simp
  · rw [hsim n le_rfl]
    simp only [Timer.update_next_display_time]
    rw [F32.add_ofInt_exact (hrep n le_rfl) (hrep n le_rfl), ← two_mul]
    exact F32.units_ofInt hrep2

/-- C1, amended, at step `2^-7` and ten steps (refresh interval `10 * 2^-7`). -/
theorem clock_draw_gating_witness :
    (0 : ℤ) < ((2 ^ 142 : ℕ) : ℤ) ∧
    (∀ k : ℕ, k ≤ 10 → isF32 (k * ((2 ^ 142 : ℕ) : ℤ)) = true) ∧
    isF32 (2 * ((10 : ℕ) * ((2 ^ 142 : ℕ) : ℤ))) = true ∧
    ((Timer.update_simulation_time (Common.mk (F32.ofInt ((2 ^ 142 : ℕ) : ℤ)) F32.one))^[10]
        (Timer.reset (Common.mk (F32.ofInt ((2 ^ 142 : ℕ) : ℤ)) F32.one)
          ⟨F32.zero, F32.zero, F32.zero, F32.zero⟩
          (F32.ofInt ((10 : ℕ) * ((2 ^ 142 : ℕ) : ℤ))))).is_time_to_draw = true ∧
    (Timer.update_next_display_time
      ((Timer.update_simulation_time (Common.mk (F32.ofInt ((2 ^ 142 : ℕ) : ℤ)) F32.one))^[10]
        (Timer.reset (Common.mk (F32.ofInt ((2 ^ 142 : ℕ) : ℤ)) F32.one)
          ⟨F32.zero, F32.zero, F32.zero, F32.zero⟩
          (F32.ofInt ((10 : ℕ) * ((2 ^ 142 : ℕ) : ℤ)))))).next_display_time_.units =
      some (2 * ((10 : ℕ) * ((2 ^ 142 : ℕ) : ℤ))) :=
  ⟨by decide!, by decide!, by decide!,
    (clock_draw_gating (Common.mk (F32.ofInt ((2 ^ 142 : ℕ) : ℤ)) F32.one)
      ⟨F32.zero, F32.zero, F32.zero, F32.zero⟩ ((2 ^ 142 : ℕ) : ℤ) 10 (by decide!) (by decide!)
      (by decide!) (by decide!)).2.2⟩

/-- C2, the failing case. With step `0.01f` and
`k_max_display_time = 8 * 0.01f` (a binary32 value, so the hypothesis
`max_display_time = n * h` holds exactly with `n = 8`), `is_time_to_stop()` is
still false after eight calls of `update_simulation_time` and first true after
the ninth, and the loop executes its body nine times. -/
theorem termination_rounds :
    F32.lit_0_01.units = some (10737418 * ((2 ^ 119 : ℕ) : ℤ)) ∧
    (F32.scaled (8 * 10737418) 119).units = some (8 * (10737418 * ((2 ^ 119 : ℕ) : ℤ))) ∧
    ((Timer.update_simulation_time (Common.mk F32.lit_0_01 (F32.scaled (8 * 10737418) 119)))^[8]
      (Timer.reset (Common.mk F32.lit_0_01 (F32.scaled (8 * 10737418) 119))
        ⟨F32.zero, F32.zero, F32.zero, F32.zero⟩ F32.zero)).is_time_to_stop
      (Common.mk F32.lit_0_01 (F32.scaled (8 * 10737418) 119)) = false ∧
    ((Timer.update_simulation_time (Common.mk F32.lit_0_01 (F32.scaled (8 * 10737418) 119)))^[9]
      (Timer.reset (Common.mk F32.lit_0_01 (F32.scaled (8 * 10737418) 119))
        ⟨F32.zero, F32.zero, F32.zero, F32.zero⟩ F32.zero)).is_time_to_stop
      (Common.mk F32.lit_0_01 (F32.scaled (8 * 10737418) 119)) = true ∧
    (Renderer.start_looping (Common.mk F32.lit_0_01 (F32.scaled (8 * 10737418) 119)) Nat.succ
        (fun _ => false) 12 0
        ⟨Timer.reset (Common.mk F32.lit_0_01 (F32.scaled (8 * 10737418) 119))
          ⟨F32.zero, F32.zero, F32.zero, F32.zero⟩ F32.zero, 0, []⟩).map
      (fun r => r.log.count Action.update_simulation_time) = some 9 := by
  decide!

/-- C2, amended. `is_time_to_stop` is the binary32 comparison
`simulation_time_ >= k_max_display_time`. For a step `h > 0` and
`k_max_display_time = n * h` such that the multiples `k * h`, `k ≤ n`, are
binary32 values (no addition rounds), after `reset` the query is false after
every number `k < n` of calls of `update_simulation_time` and true after `n`
calls; with no close request the guard of the loop holds at the head of
iterations `0 .. n-1` and fails at the head of iteration `n`, so
`start_looping` returns after exactly `n` executions of its body. With the
figures `k_max_display_time = 1.0f`, `h = 0.1f` the loop executes its body
exactly ten times. (`mh` is `h` in units of `2^-149`.) -/
theorem termination_after_n_steps {σ : Type} (c : Common) (t0 : Timer) (r : F32) (mh : ℤ)
    (n : ℕ) (step : σ → σ) (s0 : σ) (fuel : ℕ)
    (hc : c.k_time_step = F32.ofInt mh) (hmax : c.k_max_display_time = F32.ofInt (n * mh))
    (hh : 0 < mh) (hrep : ∀ k : ℕ, k ≤ n → isF32 (k * mh) = true) (hfuel : n < fuel) :
    (∀ t : Timer, t.is_time_to_stop c = F32.ge t.simulation_time_ c.k_max_display_time) ∧
    (∀ k, k < n →
      ((Timer.update_simulation_time c)^[k] (Timer.reset c t0 r)).is_time_to_stop c = false) ∧
    ((Timer.update_simulation_time c)^[n] (Timer.reset c t0 r)).is_time_to_stop c = true ∧
    (∀ k, k < n →
      Renderer.loop_guard c (fun _ => false) k
        (Renderer.iterations c step k ⟨Timer.reset c t0 r, s0, []⟩) = true) ∧
    Renderer.loop_guard c (fun _ => false) n
      (Renderer.iterations c step n ⟨Timer.reset c t0 r, s0, []⟩) = false ∧
    Renderer.start_looping c step (fun _ => false) fuel 0 ⟨Timer.reset c t0 r, s0, []⟩ =
      some (Renderer.iterations c step n ⟨Timer.reset c t0 r, s0, []⟩) ∧
    (Renderer.iterations c step n ⟨Timer.reset c t0 r, s0, []⟩).log.count
      Action.update_simulation_time = n ∧
    (Renderer.start_looping (Common.mk F32.lit_0_1 F32.one) Nat.succ (fun _ => false) 12 0
        ⟨Timer.reset (Common.mk F32.lit_0_1 F32.one) ⟨F32.zero, F32.zero, F32.zero, F32.zero⟩
          F32.zero, 0, []⟩).map
      (fun r => r.log.count Action.update_simulation_time) = some 10 := by
  have hsum : ∀ k : ℕ, k ≤ n →
      (fun x => F32.add x c.k_time_step)^[k] F32.zero = F32.ofInt (k * mh) := by
    intro k hk
    rw [hc]
    exact F32.iterate_add_exact mh n hrep k hk
  have hcmp : ∀ k : ℕ, k ≤ n →
      F32.ge (F32.ofInt (k * mh)) c.k_max_display_time = decide (n ≤ k) := by
    intro k hk
    rw [hmax, F32.ge_ofInt_iff (hrep k hk) (hrep n le_rfl)]
    congr 1
    apply propext
    constructor
    · intro h
      by_contra hlt
      have hkn : (k : ℤ) < n := by exact_mod_cast not_le.1 hlt
      have := mul_lt_mul_of_pos_right hkn hh
      omega
    · intro h
      have hkn : (n : ℤ) ≤ k := by exact_mod_cast h
      exact mul_le_mul_of_nonneg_right hkn hh.le
  have hgo : ∀ k, k < n →
      Renderer.loop_guard c (fun _ => false) k
        (Renderer.iterations c step k ⟨Timer.reset c t0 r, s0, []⟩) = true := by
    intro k hk
    simp only [Renderer.loop_guard, Timer.is_time_to_stop, Renderer.iterations_simulation_time,
      Timer.reset_eq, hsum k hk.le, hcmp k hk.le]
    simp
    omega
  have hstop : Renderer.loop_guard c (fun _ => false) n
      (Renderer.iterations c step n ⟨Timer.reset c t0 r, s0, []⟩) = false := by
    simp only [Renderer.loop_guard, Timer.is_time_to_stop, Renderer.iterations_simulation_time,
      Timer.reset_eq, hsum n le_rfl, hcmp n le_rfl]
    simp
  refine ⟨fun _ => rfl, ?_, ?_, hgo, hstop, ?_, ?_, by decide!⟩
  · intro k hk
    rw [Timer.iterate_update_simulation_time, Timer.reset_eq]
    simp only [Timer.is_time_to_stop, hsum k hk.le, hcmp k hk.le]
    simp
    omega
  · rw [Timer.iterate_update_simulation_time, Timer.reset_eq]
    simp only [Timer.is_time_to_stop, hsum n le_rfl, hcmp n le_rfl]
    simp
  · apply Renderer.start_looping_eq c step (fun _ => false) n fuel 0 _ hfuel
    · intro j hj
      simpa using hgo j hj
    · simpa using hstop
  · simp [Renderer.iterations_count_update_simulation_time]

/-- C2, amended, at step `2^-7`, `k_max_display_time = 10 * 2^-7`, ten
iterations. -/
theorem termination_after_n_steps_witness :
    (0 : ℤ) < ((2 ^ 142 : ℕ) : ℤ) ∧
    (∀ k : ℕ, k ≤ 10 → isF32 (k * ((2 ^ 142 : ℕ) : ℤ)) = true) ∧
    10 < 11 ∧
    Renderer.start_looping
        (Common.mk (F32.ofInt ((2 ^ 142 : ℕ) : ℤ)) (F32.ofInt ((10 : ℕ) * ((2 ^ 142 : ℕ) : ℤ))))
        Nat.succ (fun _ => false) 11 0
        ⟨Timer.reset
          (Common.mk (F32.ofInt ((2 ^ 142 : ℕ) : ℤ))
            (F32.ofInt ((10 : ℕ) * ((2 ^ 142 : ℕ) : ℤ))))
          ⟨F32.zero, F32.zero, F32.zero, F32.zero⟩ F32.zero, 0, []⟩ =
      some (Renderer.iterations
        (Common.mk (F32.ofInt ((2 ^ 142 : ℕ) : ℤ)) (F32.ofInt ((10 : ℕ) * ((2 ^ 142 : ℕ) : ℤ))))
        Nat.succ 10
        ⟨Timer.reset
          (Common.mk (F32.ofInt ((2 ^ 142 : ℕ) : ℤ))
            (F32.ofInt ((10 : ℕ) * ((2 ^ 142 : ℕ) : ℤ))))
          ⟨F32.zero, F32.zero, F32.zero, F32.zero⟩ F32.zero, 0, []⟩) :=
  ⟨by decide!, by decide!, by decide,
    (termination_after_n_steps
      (Common.mk (F32.ofInt ((2 ^ 142 : ℕ) : ℤ)) (F32.ofInt ((10 : ℕ) * ((2 ^ 142 : ℕ) : ℤ))))
      ⟨F32.zero, F32.zero, F32.zero, F32.zero⟩ F32.zero ((2 ^ 142 : ℕ) : ℤ) 10 Nat.succ 0 11
      (by decide!) (by decide!) (by decide!) (by decide!) (by decide)).2.2.2.2.2.1⟩

/-- After `reset(r)` with `r >= 0` and any sequence of operations,
`next_display_time_` is `>= 0`. -/
theorem Op.run_next_display_time_nonneg (c : Common) (t0 : Timer) (r : F32) (ops : List Op)
    (hr : F32.ge r F32.zero = true) :
    F32.ge (Op.run c ops (Timer.reset c t0 r)).next_display_time_ F32.zero = true := by
  rw [Op.run_next_display_time, Timer.reset_eq]
  generalize ops.count Op.update_next_display_time = d
  induction d with
  | zero => exact hr
  | succ d ih =>
    rw [Function.iterate_succ_apply']
    exact F32.add_nonneg ih hr

/-- C3, the failing cases. After `reset(-1.0f)` one call of
`update_next_display_time` lowers `next_display_time_` from `-1` to `-2`.
After `reset(0.1f)` (`0.1f = 13421773 * 2^-27`) two calls of
`update_next_display_time` give `40265320 * 2^-27`, which is not
`3 * 0.1f = 40265319 * 2^-27`. -/
theorem next_display_time_fails :
    (Timer.reset (Common.mk F32.lit_0_01 F32.one) ⟨F32.zero, F32.zero, F32.zero, F32.zero⟩
        (F32.ofCInt (-1))).next_display_time_.units = some (-1 * ((2 ^ 149 : ℕ) : ℤ)) ∧
    (Timer.update_next_display_time
        (Timer.reset (Common.mk F32.lit_0_01 F32.one) ⟨F32.zero, F32.zero, F32.zero, F32.zero⟩
          (F32.ofCInt (-1)))).next_display_time_.units = some (-2 * ((2 ^ 149 : ℕ) : ℤ)) ∧
    F32.ge
      (Timer.update_next_display_time
        (Timer.reset (Common.mk F32.lit_0_01 F32.one) ⟨F32.zero, F32.zero, F32.zero, F32.zero⟩
          (F32.ofCInt (-1)))).next_display_time_
      (Timer.reset (Common.mk F32.lit_0_01 F32.one) ⟨F32.zero, F32.zero, F32.zero, F32.zero⟩
        (F32.ofCInt (-1))).next_display_time_ = false ∧
    F32.lit_0_1.units = some (13421773 * ((2 ^ 122 : ℕ) : ℤ)) ∧
    (Op.run (Common.mk F32.lit_0_01 F32.one)
        [Op.update_next_display_time, Op.update_next_display_time]
        (Timer.reset (Common.mk F32.lit_0_01 F32.one) ⟨F32.zero, F32.zero, F32.zero, F32.zero⟩
          F32.lit_0_1)).next_display_time_.units = some (40265320 * ((2 ^ 122 : ℕ) : ℤ)) ∧
    (Op.run (Common.mk F32.lit_0_01 F32.one)
        [Op.update_next_display_time, Op.update_next_display_time]
        (Timer.reset (Common.mk F32.lit_0_01 F32.one) ⟨F32.zero, F32.zero, F32.zero, F32.zero⟩
          F32.lit_0_1)).next_display_time_.units ≠
      some (3 * (13421773 * ((2 ^ 122 : ℕ) : ℤ))) := by
  decide!

/-- C3, amended. After `reset(r)` and any sequence `ops` of `Timer` operations:
each of the three operations other than `update_next_display_time` leaves
`next_display_time_` unchanged, and `update_next_display_time` replaces it by
the binary32 sum of itself and `r`; when the multiples `k * r`, `k ≤ d + 1`,
are binary32 values, where `d` is the number of `update_next_display_time` in
`ops`, it equals `(d + 1) * r`; and when `r >= 0` no operation lowers it.
(`mr` is `r` in units of `2^-149`.) -/
theorem next_display_time_multiple (c : Common) (t0 : Timer) (r : F32) (ops : List Op) :
    (∀ op : Op, op ≠ Op.update_next_display_time →
      (op.apply c (Op.run c ops (Timer.reset c t0 r))).next_display_time_ =
        (Op.run c ops (Timer.reset c t0 r)).next_display_time_) ∧
    (Op.update_next_display_time.apply c (Op.run c ops (Timer.reset c t0 r))).next_display_time_ =
      F32.add (Op.run c ops (Timer.reset c t0 r)).next_display_time_ r ∧
    (∀ mr : ℤ, r = F32.ofInt mr →
      (∀ k : ℕ, k ≤ ops.count Op.update_next_display_time + 1 → isF32 (k * mr) = true) →
      (Op.run c ops (Timer.reset c t0 r)).next_display_time_.units =
        some (((ops.count Op.update_next_display_time : ℕ) + 1) * mr)) ∧
    (F32.ge r F32.zero = true → ∀ op : Op,
      F32.ge (op.apply c (Op.run c ops (Timer.reset c t0 r))).next_display_time_
        (Op.run c ops (Timer.reset c t0 r)).next_display_time_ = true) := by
  have hf : (Op.run c ops (Timer.reset c t0 r)).refresh_interval_ = r := by
    rw [(Op.run_frame c ops _).2, Timer.reset_eq]
  refine ⟨?_, ?_, ?_, ?_⟩
  · intro op hop
    cases op <;> simp_all [Op.apply, Timer.update_simulation_time]
  · simp [Op.apply, Timer.update_next_display_time, hf]
  · intro mr hmr hrep
    rw [Op.run_next_display_time, Timer.reset_eq]
    simp only [hmr]
    rw [F32.iterate_add_exact_from mr _ hrep]
    have := F32.units_ofInt (hrep _ le_rfl)
    simpa using this
  · intro hr op
    have hnn := Op.run_next_display_time_nonneg c t0 r ops hr
    have hne : (Op.run c ops (Timer.reset c t0 r)).next_display_time_ ≠ F32.nan :=
      F32.ne_nan_of_ge_left hnn
    cases op
    · simpa [Op.apply, Timer.update_simulation_time] using F32.ge_self hne
    · simp only [Op.apply, Timer.update_next_display_time, hf]
      have h := F32.add_mono (F32.ge_self hne) hr
        (by rw [F32.add_zero]; exact hne) (F32.ne_nan_of_ge_left (F32.add_nonneg hnn hr))
      rwa [F32.add_zero] at h
    · simpa [Op.apply] using F32.ge_self hne
    · simpa [Op.apply] using F32.ge_self hne

/-- C3, amended, at `r = 2^-3` after one simulation step, two display
advances and the two queries: `next_display_time_` is `3 * 2^-3`, and no
operation lowers it. -/
theorem next_display_time_multiple_witness :
    F32.ge (F32.ofInt ((2 ^ 146 : ℕ) : ℤ)) F32.zero = true ∧
    (∀ k : ℕ,
      k ≤ [Op.update_simulation_time, Op.update_next_display_time, Op.is_time_to_draw,
          Op.update_next_display_time, Op.is_time_to_stop].count Op.update_next_display_time + 1 →
      isF32 (k * ((2 ^ 146 : ℕ) : ℤ)) = true) ∧
    (Op.run (Common.mk F32.lit_0_01 F32.one)
        [Op.update_simulation_time, Op.update_next_display_time, Op.is_time_to_draw,
          Op.update_next_display_time, Op.is_time_to_stop]
        (Timer.reset (Common.mk F32.lit_0_01 F32.one) ⟨F32.zero, F32.zero, F32.zero, F32.zero⟩
          (F32.ofInt ((2 ^ 146 : ℕ) : ℤ)))).next_display_time_.units =
      some ((([Op.update_simulation_time, Op.update_next_display_time, Op.is_time_to_draw,
          Op.update_next_display_time, Op.is_time_to_stop].count
            Op.update_next_display_time : ℕ) + 1) * ((2 ^ 146 : ℕ) : ℤ)) ∧
    (∀ op : Op,
      F32.ge
        (op.apply (Common.mk F32.lit_0_01 F32.one)
          (Op.run (Common.mk F32.lit_0_01 F32.one)
            [Op.update_simulation_time, Op.update_next_display_time, Op.is_time_to_draw,
              Op.update_next_display_time, Op.is_time_to_stop]
            (Timer.reset (Common.mk F32.lit_0_01 F32.one)
              ⟨F32.zero, F32.zero, F32.zero, F32.zero⟩
              (F32.ofInt ((2 ^ 146 : ℕ) : ℤ))))).next_display_time_
        (Op.run (Common.mk F32.lit_0_01 F32.one)
          [Op.update_simulation_time, Op.update_next_display_time, Op.is_time_to_draw,
            Op.update_next_display_time, Op.is_time_to_stop]
          (Timer.reset (Common.mk F32.lit_0_01 F32.one) ⟨F32.zero, F32.zero, F32.zero, F32.zero⟩
            (F32.ofInt ((2 ^ 146 : ℕ) : ℤ)))).next_display_time_ = true) :=
  ⟨by decide!, by decide!,
    (next_display_time_multiple (Common.mk F32.lit_0_01 F32.one)
      ⟨F32.zero, F32.zero, F32.zero, F32.zero⟩ (F32.ofInt ((2 ^ 146 : ℕ) : ℤ))
      [Op.update_simulation_time, Op.update_next_display_time, Op.is_time_to_draw,
        Op.update_next_display_time, Op.is_time_to_stop]).2.2.1 ((2 ^ 146 : ℕ) : ℤ)
      (by decide!) (by decide!),
    (next_display_time_multiple (Common.mk F32.lit_0_01 F32.one)
      ⟨F32.zero, F32.zero, F32.zero, F32.zero⟩ (F32.ofInt ((2 ^ 146 : ℕ) : ℤ))
      [Op.update_simulation_time, Op.update_next_display_time, Op.is_time_to_draw,
        Op.update_next_display_time, Op.is_time_to_stop]).2.2.2 (by decide!)⟩

/-- C6, the failing case. With step `0.01f = 10737418 * 2^-30`, after ten
iterations `simulation_time_` is `107374168 * 2^-30`, not
`10 * 0.01f = 107374180 * 2^-30`. -/
theorem simulation_time_not_multiple :
    F32.lit_0_01.units = some (10737418 * ((2 ^ 119 : ℕ) : ℤ)) ∧
    (Renderer.iterations (Common.mk F32.lit_0_01 F32.one) Nat.succ 10
      ⟨Timer.reset (Common.mk F32.lit_0_01 F32.one) ⟨F32.zero, F32.zero, F32.zero, F32.zero⟩
        F32.zero, 0, []⟩).timer.simulation_time_.units =
      some (107374168 * ((2 ^ 119 : ℕ) : ℤ)) ∧
    (Renderer.iterations (Common.mk F32.lit_0_01 F32.one) Nat.succ 10
      ⟨Timer.reset (Common.mk F32.lit_0_01 F32.one) ⟨F32.zero, F32.zero, F32.zero, F32.zero⟩
        F32.zero, 0, []⟩).timer.simulation_time_.units ≠
      some (10 * (10737418 * ((2 ^ 119 : ℕ) : ℤ))) := by
  decide!

/-- C6, amended. Every execution of the loop body calls `compute_next_state`
exactly once and `update_simulation_time` exactly once, whether or not a draw
is due: the solver advances by one step and `simulation_time_` becomes the
binary32 sum of itself and `k_time_step`. After `k` iterations from `reset(r)`
the solver has been stepped `k` times and `simulation_time_` is the `k`-fold
binary32 sum `0 + k_time_step + ... + k_time_step` (`k_time_step` being the
stored `timestep_`), the same value for any two refresh intervals; it equals
`k * k_time_step` when the multiples `j * k_time_step`, `j ≤ k`, are binary32
values. (`mh` is `k_time_step` in units of `2^-149`.) -/
theorem simulation_advances_unconditionally {σ : Type} (c : Common) (step : σ → σ)
    (rd : Renderer σ) (t0 : Timer) (s0 : σ) (r r2 : F32) (k : ℕ) :
    (Renderer.iteration_actions c step rd).count Action.compute_next_state = 1 ∧
    (Renderer.iteration_actions c step rd).count Action.update_simulation_time = 1 ∧
    (Renderer.loop_body c step rd).sovler = step rd.sovler ∧
    (Renderer.loop_body c step rd).timer.simulation_time_ =
      F32.add rd.timer.simulation_time_ c.k_time_step ∧
    (Renderer.iterations c step k ⟨Timer.reset c t0 r, s0, []⟩).sovler = step^[k] s0 ∧
    (Renderer.iterations c step k ⟨Timer.reset c t0 r, s0, []⟩).log.count
      Action.compute_next_state = k ∧
    (Renderer.iterations c step k ⟨Timer.reset c t0 r, s0, []⟩).log.count
      Action.update_simulation_time = k ∧
    (Renderer.iterations c step k ⟨Timer.reset c t0 r, s0, []⟩).timer.simulation_time_ =
      (fun x => F32.add x c.k_time_step)^[k] F32.zero ∧
    (Renderer.iterations c step k ⟨Timer.reset c t0 r, s0, []⟩).timer.timestep_ =
      c.k_time_step ∧
    (Renderer.iterations c step k ⟨Timer.reset c t0 r, s0, []⟩).timer.simulation_time_ =
      (Renderer.iterations c step k ⟨Timer.reset c t0 r2, s0, []⟩).timer.simulation_time_ ∧
    (∀ mh : ℤ, c.k_time_step = F32.ofInt mh →
      (∀ j : ℕ, j ≤ k → isF32 (j * mh) = true) →
      (Renderer.iterations c step k
        ⟨Timer.reset c t0 r, s0, []⟩).timer.simulation_time_.units = some (k * mh)) := by
  refine ⟨?_, ?_, Renderer.loop_body_sovler c step rd,
    (Renderer.loop_body_fields c step rd).1,
    Renderer.iterations_sovler c step k _, ?_, ?_, ?_, ?_, ?_, ?_⟩
  · rw [Renderer.iteration_actions_eq]
    by_cases h : rd.timer.is_time_to_draw = true
    · rw [h]; decide
    · rw [Bool.not_eq_true] at h; rw [h]; decide
  · rw [Renderer.iteration_actions_eq]
    by_cases h : rd.timer.is_time_to_draw = true
    · rw [h]; decide
    · rw [Bool.not_eq_true] at h; rw [h]; decide
  · simp [Renderer.iterations_count_compute_next_state]
  · simp [Renderer.iterations_count_update_simulation_time]
  · rw [Renderer.iterations_simulation_time, Timer.reset_eq]
  · rw [(Renderer.iterations_frame c step k _).1, Timer.reset_eq]
  · rw [Renderer.iterations_simulation_time, Renderer.iterations_simulation_time,
      Timer.reset_eq, Timer.reset_eq]
  · intro mh hmh hrep
    rw [Renderer.iterations_simulation_time, Timer.reset_eq, hmh]
    simp only [F32.iterate_add_exact mh k hrep k le_rfl]
    exact F32.units_ofInt (hrep k le_rfl)

/-- C6, amended, at step `2^-7`: after ten iterations `simulation_time_` is
`10 * 2^-7`. -/
theorem simulation_advances_unconditionally_witness :
    (∀ j : ℕ, j ≤ 10 → isF32 (j * ((2 ^ 142 : ℕ) : ℤ)) = true) ∧
    (Renderer.iterations (Common.mk (F32.ofInt ((2 ^ 142 : ℕ) : ℤ)) F32.one) Nat.succ 10
      ⟨Timer.reset (Common.mk (F32.ofInt ((2 ^ 142 : ℕ) : ℤ)) F32.one)
        ⟨F32.zero, F32.zero, F32.zero, F32.zero⟩ F32.lit_0_1, 0, []⟩).timer.simulation_time_.units =
      some ((10 : ℕ) * ((2 ^ 142 : ℕ) : ℤ)) :=
  ⟨by decide!,
    (simulation_advances_unconditionally (Common.mk (F32.ofInt ((2 ^ 142 : ℕ) : ℤ)) F32.one)
      Nat.succ ⟨⟨F32.zero, F32.zero, F32.zero, F32.zero⟩, 0, []⟩
      ⟨F32.zero, F32.zero, F32.zero, F32.zero⟩ 0 F32.lit_0_1 F32.zero 10).2.2.2.2.2.2.2.2.2.2
      ((2 ^ 142 : ℕ) : ℤ) (by decide!) (by decide!)⟩

/-- C8, the failing case. With step `0.01f = 10737418 * 2^-30`, after `reset`
and four calls `simulation_time_` is `42949672 * 2^-30`; the fifth call gives
`53687088 * 2^-30`, not `42949672 * 2^-30 + 10737418 * 2^-30 =
53687090 * 2^-30`. -/
theorem update_simulation_time_rounds :
    (Op.run (Common.mk F32.lit_0_01 F32.one)
        [Op.update_simulation_time, Op.update_simulation_time, Op.update_simulation_time,
          Op.update_simulation_time]
        (Timer.reset (Common.mk F32.lit_0_01 F32.one) ⟨F32.zero, F32.zero, F32.zero, F32.zero⟩
          F32.zero)).simulation_time_.units = some (42949672 * ((2 ^ 119 : ℕ) : ℤ)) ∧
    (Op.run (Common.mk F32.lit_0_01 F32.one)
        [Op.update_simulation_time, Op.update_simulation_time, Op.update_simulation_time,
          Op.update_simulation_time]
        (Timer.reset (Common.mk F32.lit_0_01 F32.one) ⟨F32.zero, F32.zero, F32.zero, F32.zero⟩
          F32.zero)).timestep_.units = some (10737418 * ((2 ^ 119 : ℕ) : ℤ)) ∧
    (Timer.update_simulation_time (Common.mk F32.lit_0_01 F32.one)
      (Op.run (Common.mk F32.lit_0_01 F32.one)
        [Op.update_simulation_time, Op.update_simulation_time, Op.update_simulation_time,
          Op.update_simulation_time]
        (Timer.reset (Common.mk F32.lit_0_01 F32.one) ⟨F32.zero, F32.zero, F32.zero, F32.zero⟩
          F32.zero))).simulation_time_.units = some (53687088 * ((2 ^ 119 : ℕ) : ℤ)) ∧
    (Timer.update_simulation_time (Common.mk F32.lit_0_01 F32.one)
      (Op.run (Common.mk F32.lit_0_01 F32.one)
        [Op.update_simulation_time, Op.update_simulation_time, Op.update_simulation_time,
          Op.update_simulation_time]
        (Timer.reset (Common.mk F32.lit_0_01 F32.one) ⟨F32.zero, F32.zero, F32.zero, F32.zero⟩
          F32.zero))).simulation_time_.units ≠
      some (42949672 * ((2 ^ 119 : ℕ) : ℤ) + 10737418 * ((2 ^ 119 : ℕ) : ℤ)) := by
  decide!

/-- C8, amended. In every state reached by `reset` followed by any sequence of
`Timer` operations, the stored `timestep_` equals `k_time_step`, and
`update_simulation_time` replaces `simulation_time_` by the binary32 sum of
itself and `timestep_` and leaves the other three fields unchanged; the sum is
the exact one whenever that is a binary32 value. (`a`, `b` are
`simulation_time_`, `timestep_` in units of `2^-149`.) -/
theorem update_simulation_time_effect (c : Common) (t0 : Timer) (r : F32) (ops : List Op) :
    (Op.run c ops (Timer.reset c t0 r)).timestep_ = c.k_time_step ∧
    (Timer.update_simulation_time c (Op.run c ops (Timer.reset c t0 r))).simulation_time_ =
      F32.add (Op.run c ops (Timer.reset c t0 r)).simulation_time_
        (Op.run c ops (Timer.reset c t0 r)).timestep_ ∧
    (Timer.update_simulation_time c (Op.run c ops (Timer.reset c t0 r))).timestep_ =
      (Op.run c ops (Timer.reset c t0 r)).timestep_ ∧
    (Timer.update_simulation_time c (Op.run c ops (Timer.reset c t0 r))).refresh_interval_ =
      (Op.run c ops (Timer.reset c t0 r)).refresh_interval_ ∧
    (Timer.update_simulation_time c (Op.run c ops (Timer.reset c t0 r))).next_display_time_ =
      (Op.run c ops (Timer.reset c t0 r)).next_display_time_ ∧
    (∀ a b : ℤ, (Op.run c ops (Timer.reset c t0 r)).simulation_time_.units = some a →
      (Op.run c ops (Timer.reset c t0 r)).timestep_.units = some b →
      isF32 (a + b) = true →
      (Timer.update_simulation_time c
        (Op.run c ops (Timer.reset c t0 r))).simulation_time_.units = some (a + b)) := by
  have hf : (Op.run c ops (Timer.reset c t0 r)).timestep_ = c.k_time_step := by
    rw [(Op.run_frame c ops _).1, Timer.reset_eq]
  refine ⟨hf, ?_, rfl, rfl, rfl, ?_⟩
  · simp [Timer.update_simulation_time, hf]
  · intro a b ha hb hab
    simp only [Timer.update_simulation_time, ← hf]
    exact F32.units_add ha hb hab

/-- C8, amended, at step `0.01f` after `reset` and two calls: the third call
gives `3 * 0.01f = 32212254 * 2^-30`, a binary32 value. -/
theorem update_simulation_time_effect_witness :
    (Op.run (Common.mk F32.lit_0_01 F32.one)
        [Op.update_simulation_time, Op.update_simulation_time]
        (Timer.reset (Common.mk F32.lit_0_01 F32.one) ⟨F32.zero, F32.zero, F32.zero, F32.zero⟩
          F32.zero)).simulation_time_.units = some (21474836 * ((2 ^ 119 : ℕ) : ℤ)) ∧
    (Op.run (Common.mk F32.lit_0_01 F32.one)
        [Op.update_simulation_time, Op.update_simulation_time]
        (Timer.reset (Common.mk F32.lit_0_01 F32.one) ⟨F32.zero, F32.zero, F32.zero, F32.zero⟩
          F32.zero)).timestep_.units = some (10737418 * ((2 ^ 119 : ℕ) : ℤ)) ∧
    isF32 (21474836 * ((2 ^ 119 : ℕ) : ℤ) + 10737418 * ((2 ^ 119 : ℕ) : ℤ)) = true ∧
    (Timer.update_simulation_time (Common.mk F32.lit_0_01 F32.one)
      (Op.run (Common.mk F32.lit_0_01 F32.one)
        [Op.update_simulation_time, Op.update_simulation_time]
        (Timer.reset (Common.mk F32.lit_0_01 F32.one) ⟨F32.zero, F32.zero, F32.zero, F32.zero⟩
          F32.zero))).simulation_time_.units =
      some (21474836 * ((2 ^ 119 : ℕ) : ℤ) + 10737418 * ((2 ^ 119 : ℕ) : ℤ)) :=
  ⟨by decide!, by decide!, by decide!,
    (update_simulation_time_effect (Common.mk F32.lit_0_01 F32.one)
      ⟨F32.zero, F32.zero, F32.zero, F32.zero⟩ F32.zero
      [Op.update_simulation_time, Op.update_simulation_time]).2.2.2.2.2 _ _
      (by decide!) (by decide!) (by decide!)⟩

/-- C9, the failing case. In the state with `next_display_time_ = 0.2f =
26843546 * 2^-27` and `refresh_interval_ = 0.1f = 13421773 * 2^-27` (reached by
`reset(0.1f)` and one call), `update_next_display_time` gives
`40265320 * 2^-27`, not `26843546 * 2^-27 + 13421773 * 2^-27 =
40265319 * 2^-27`. -/
theorem update_next_display_time_rounds :
    (Timer.update_next_display_time
      (Timer.reset (Common.mk F32.lit_0_01 F32.one) ⟨F32.zero, F32.zero, F32.zero, F32.zero⟩
        F32.lit_0_1)).next_display_time_.units = some (26843546 * ((2 ^ 122 : ℕ) : ℤ)) ∧
    (Timer.update_next_display_time
      (Timer.reset (Common.mk F32.lit_0_01 F32.one) ⟨F32.zero, F32.zero, F32.zero, F32.zero⟩
        F32.lit_0_1)).refresh_interval_.units = some (13421773 * ((2 ^ 122 : ℕ) : ℤ)) ∧
    (Timer.update_next_display_time (Timer.update_next_display_time
      (Timer.reset (Common.mk F32.lit_0_01 F32.one) ⟨F32.zero, F32.zero, F32.zero, F32.zero⟩
        F32.lit_0_1))).next_display_time_.units = some (40265320 * ((2 ^ 122 : ℕ) : ℤ)) ∧
    (Timer.update_next_display_time (Timer.update_next_display_time
      (Timer.reset (Common.mk F32.lit_0_01 F32.one) ⟨F32.zero, F32.zero, F32.zero, F32.zero⟩
        F32.lit_0_1))).next_display_time_.units ≠
      some (26843546 * ((2 ^ 122 : ℕ) : ℤ) + 13421773 * ((2 ^ 122 : ℕ) : ℤ)) := by
  decide!

/-- C9, amended. In every state, `update_next_display_time` replaces
`next_display_time_` by the binary32 sum of itself and the stored
`refresh_interval_`, leaves the other three fields unchanged, and does not
change the answer of `is_time_to_stop`; the sum is the exact one whenever that
is a binary32 value. (`a`, `b` are `next_display_time_`, `refresh_interval_`
in units of `2^-149`.) -/
theorem update_next_display_time_effect (c : Common) (t : Timer) :
    t.update_next_display_time.next_display_time_ =
      F32.add t.next_display_time_ t.refresh_interval_ ∧
    t.update_next_display_time.simulation_time_ = t.simulation_time_ ∧
    t.update_next_display_time.timestep_ = t.timestep_ ∧
    t.update_next_display_time.refresh_interval_ = t.refresh_interval_ ∧
    t.update_next_display_time.is_time_to_stop c = t.is_time_to_stop c ∧
    (∀ a b : ℤ, t.next_display_time_.units = some a → t.refresh_interval_.units = some b →
      isF32 (a + b) = true →
      t.update_next_display_time.next_display_time_.units = some (a + b)) := by
  refine ⟨rfl, rfl, rfl, rfl, rfl, ?_⟩
  intro a b ha hb hab
  exact F32.units_add ha hb hab

/-- C9, amended, in the state after `reset(0.1f)`: one call gives
`2 * 0.1f = 26843546 * 2^-27`, a binary32 value. -/
theorem update_next_display_time_effect_witness :
    (Timer.reset (Common.mk F32.lit_0_01 F32.one) ⟨F32.zero, F32.zero, F32.zero, F32.zero⟩
      F32.lit_0_1).next_display_time_.units = some (13421773 * ((2 ^ 122 : ℕ) : ℤ)) ∧
    (Timer.reset (Common.mk F32.lit_0_01 F32.one) ⟨F32.zero, F32.zero, F32.zero, F32.zero⟩
      F32.lit_0_1).refresh_interval_.units = some (13421773 * ((2 ^ 122 : ℕ) : ℤ)) ∧
    isF32 (13421773 * ((2 ^ 122 : ℕ) : ℤ) + 13421773 * ((2 ^ 122 : ℕ) : ℤ)) = true ∧
    (Timer.update_next_display_time
      (Timer.reset (Common.mk F32.lit_0_01 F32.one) ⟨F32.zero, F32.zero, F32.zero, F32.zero⟩
        F32.lit_0_1)).next_display_time_.units =
      some (13421773 * ((2 ^ 122 : ℕ) : ℤ) + 13421773 * ((2 ^ 122 : ℕ) : ℤ)) :=
  ⟨by decide!, by decide!, by decide!,
    (update_next_display_time_effect (Common.mk F32.lit_0_01 F32.one)
      (Timer.reset (Common.mk F32.lit_0_01 F32.one) ⟨F32.zero, F32.zero, F32.zero, F32.zero⟩
        F32.lit_0_1)).2.2.2.2.2 _ _ (by decide!) (by decide!) (by decide!)⟩

end RigidBody
